import Mathlib

/-!
Verification of the mail-tracking repository's data layer (`lib/db.ts`, the
variant with status colors and recomputed `pending_days`) and its HTTP
handler (`app/api/mail/route.ts`, the full-featured variant).

Modelling conventions:
* Calendar dates are day numbers (`Int`).  ISO `YYYY-MM-DD` strings compare
  lexicographically exactly as their day numbers compare, and the source's
  millisecond arithmetic between two local midnights divides out to a whole
  number of days, so SQL date comparison becomes integer comparison and
  `Math.floor(diffTime / 86400000)` becomes integer subtraction.
* `new Date()` (the clock) becomes an explicit `today : Int` argument.
* SQLite tables become Lean lists; `INTEGER PRIMARY KEY` row ids are drawn
  from explicit `next...Id` counters.  better-sqlite3 compiles its bundled
  SQLite with `SQLITE_DEFAULT_FOREIGN_KEYS=1`, so the foreign keys the
  schema declares on `mail_records` are enforced: an INSERT whose
  `originator_id` (or non-NULL `recipient_id`) has no `directorates` row
  throws `FOREIGN KEY constraint failed`, and an UPDATE throws likewise
  when it SETs such a column to a dangling value (SQLite skips the check
  for child-key columns the UPDATE does not modify).
* JavaScript `throw` of a data-layer `Error` becomes `Except DbError`; each
  `DbError` constructor is named after the message substring the HTTP layer
  dispatches on.  `db.transaction` rollback is modelled at the call sites:
  an `Except.error` result leaves the caller's state untouched.
* JavaScript truthiness on optional strings (`if (rec.originator)`) is
  `Option String` being `some s` with `s ≠ ""`; on optional numbers it is
  `some n` with `n ≠ 0`.
-/

namespace MailTrack

/-- A calendar date as a day number. -/
abbrev Date := Int

/-- A row of the `directorates` table (the addressee master list). -/
structure Directorate where
  id : Int
  name : String
deriving Repr, DecidableEq

/-- A row of the `status_entries` table. -/
structure StatusEntry where
  id : Int
  name : String
  color : String
deriving Repr, DecidableEq

/-- A row of the `mail_records` table. -/
structure MailRecord where
  id : Int
  document_title : String
  originator_id : Int
  received_date : Date
  status : String
  comments : String
  despatch_date : Option Date
  recipient_id : Option Int
  pending_days : Int
deriving Repr, DecidableEq

/-- The whole SQLite database file: the three tables plus the next free
`INTEGER PRIMARY KEY` value of the two tables the claims insert into. -/
structure DbState where
  directorates : List Directorate
  status_entries : List StatusEntry
  mail_records : List MailRecord
  nextStatusId : Int
  nextMailId : Int
deriving Repr, DecidableEq

/-- `DEFAULT_STATUS_COLOR` from `lib/db.ts`. -/
def DEFAULT_STATUS_COLOR : String := "#2563eb"

/-- `calculatePendingDays` from `lib/db.ts`: 0 as soon as a despatch date is
set (truthy), otherwise the number of whole days from the received date to
today, clamped to be non-negative. -/
def calculatePendingDays (today : Date) (receivedDate : Date)
    (despatchDate : Option Date) : Int :=
  match despatchDate with
  | some _ => 0
  | none => max 0 (today - receivedDate)

/-- `getDirectorateByName` from `lib/db.ts` (`SELECT * FROM directorates
WHERE name = ?`). -/
def getDirectorateByName (st : DbState) (name : String) : Option Directorate :=
  st.directorates.find? (fun d => d.name == name)

/-- Lookup backing every `JOIN directorates ON ... = d.id` in the source. -/
def findDirectorateById (st : DbState) (id : Int) : Option Directorate :=
  st.directorates.find? (fun d => d.id == id)

/-- Whether a `directorates` row with this id exists — the parent-key
lookup the engine performs for the schema's foreign keys. -/
def dirIdExists (st : DbState) (id : Int) : Bool :=
  st.directorates.any (fun d => d.id == id)

/-- Errors thrown by the data layer; each constructor stands for the
`Error` message substring the HTTP layer dispatches on:
`notFound` for "... not found", `cannotDelete` for "Cannot delete ..."
(the count of referencing mail records is carried along as the message
interpolates it), `alreadyExists` for "... already exists", `missingMaster`
for `Addressee "name" does not exist in the master list`, `badRecordShape`
for "Records must have either originator or originator_id", `noFields` for
"No fields to update", `couldNotDelete` for "... could not be deleted"
(which contains neither dispatch substring), and `foreignKey` for the
engine's "FOREIGN KEY constraint failed" (better-sqlite3 enforces the
declared foreign keys by default). -/
inductive DbError where
  | notFound
  | cannotDelete (count : Nat)
  | alreadyExists
  | missingMaster (name : String)
  | badRecordShape
  | noFields
  | couldNotDelete
  | foreignKey
deriving Repr, DecidableEq

/-- JavaScript `String.prototype.trim` / the `.trim()` calls of the route
handler: strip leading and trailing whitespace.  (Lean's own `String.trim`
is extensionally the same but is defined through substring primitives that
do not reduce inside the kernel, so the model works on the character
list.) -/
def strTrim (s : String) : String :=
  ⟨((s.data.dropWhile Char.isWhitespace).reverse.dropWhile
    Char.isWhitespace).reverse⟩

/-- JavaScript `toLowerCase` restricted to the ASCII range, which is all
the route handler ever lowercases (hex color strings). -/
def strToLower (s : String) : String := ⟨s.data.map Char.toLower⟩

/-- Decides whether `pat` occurs as a contiguous substring of `hay`
(character lists). -/
def containsSub : List Char → List Char → Bool
  | [], pat => pat.isEmpty
  | h :: t, pat => pat.isPrefixOf (h :: t) || containsSub t pat

/-- SQL `column LIKE '%term%'`: substring containment, ASCII
case-insensitive (SQLite's `LIKE` folds case for ASCII only, exactly what
`Char.toLower` does). -/
def likeContains (hay term : String) : Bool :=
  containsSub (strToLower hay).data (strToLower term).data

/-- The shape of a row returned by `searchMailRecords`' SELECT: the record
joined with the originator's name (`INNER JOIN`) and the recipient's name
(`LEFT JOIN`), with `pending_days` recomputed in JavaScript. -/
structure JoinedRecord where
  id : Int
  document_title : String
  originator : String
  received_date : Date
  status : String
  comments : String
  despatch_date : Option Date
  recipient_name : Option String
  pending_days : Int
deriving Repr, DecidableEq

/-- The WHERE clause `searchMailRecords` builds: each filter argument
appends its conjunct only when truthy (a non-empty string resp. a present
date).  `d2.name = ?` with a NULL `d2.name` is SQL-NULL, hence false. -/
def matchesFilters (searchTerm originator recipient status : String)
    (receivedFrom receivedTo despatchFrom despatchTo : Option Date)
    (mr : MailRecord) (d1name : String) (rname : Option String) : Bool :=
  (searchTerm == "" || (likeContains mr.document_title searchTerm
      || likeContains d1name searchTerm
      || likeContains mr.comments searchTerm))
  && (originator == "" || d1name == originator)
  && (recipient == "" || (match rname with
      | some n => n == recipient
      | none => false))
  && (status == "" || mr.status == status)
  && (match receivedFrom with
      | none => true
      | some d => decide (d ≤ mr.received_date))
  && (match receivedTo with
      | none => true
      | some d => decide (mr.received_date ≤ d))
  && (match despatchFrom with
      | none => true
      | some d => match mr.despatch_date with
        | some dd => decide (d ≤ dd)
        | none => false)
  && (match despatchTo with
      | none => true
      | some d => match mr.despatch_date with
        | some dd => decide (dd ≤ d)
        | none => false)

/-- Ordering relation of `ORDER BY mr.received_date DESC`. -/
def recvDesc (a b : JoinedRecord) : Prop := b.received_date ≤ a.received_date

instance : DecidableRel recvDesc :=
  fun a b => inferInstanceAs (Decidable (b.received_date ≤ a.received_date))

instance : IsTotal JoinedRecord recvDesc :=
  ⟨fun a b => (le_total b.received_date a.received_date)⟩

instance : IsTrans JoinedRecord recvDesc :=
  ⟨fun _ _ _ h1 h2 => le_trans h2 h1⟩

/-- Row produced for `mr` by `searchMailRecords` when the joins and the
WHERE clause keep it: the `INNER JOIN` on the originator drops the record
when `originator_id` resolves to no directorate; the `LEFT JOIN` on the
recipient yields a NULL name when `recipient_id` is NULL or dangling; the
JavaScript map then recomputes `pending_days`. -/
def searchRow (st : DbState) (today : Date)
    (searchTerm originator recipient status : String)
    (receivedFrom receivedTo despatchFrom despatchTo : Option Date)
    (mr : MailRecord) : Option JoinedRecord :=
  match findDirectorateById st mr.originator_id with
  | none => none
  | some d1 =>
    let rname := (mr.recipient_id.bind (findDirectorateById st)).map
      (fun d => d.name)
    if matchesFilters searchTerm originator recipient status
        receivedFrom receivedTo despatchFrom despatchTo mr d1.name rname then
      some {
        id := mr.id
        document_title := mr.document_title
        originator := d1.name
        received_date := mr.received_date
        status := mr.status
        comments := mr.comments
        despatch_date := mr.despatch_date
        recipient_name := rname
        pending_days := calculatePendingDays today mr.received_date mr.despatch_date }
    else none

/-- `searchMailRecords` from `lib/db.ts`: join, filter, order by
`received_date` descending (modelled by insertion sort), recompute
`pending_days` per row. -/
def searchMailRecords (st : DbState) (today : Date)
    (searchTerm originator recipient status : String)
    (receivedFrom receivedTo despatchFrom despatchTo : Option Date) :
    List JoinedRecord :=
  (st.mail_records.filterMap
    (searchRow st today searchTerm originator recipient status
      receivedFrom receivedTo despatchFrom despatchTo)).insertionSort recvDesc

/-- The shape of the row returned by `getMailRecordById`'s SELECT, which
additionally selects `d1.id as originator_id` and `d2.id as recipient_id`
from the joined directorate rows. -/
structure RecordView where
  id : Int
  document_title : String
  originator : String
  originator_id : Int
  received_date : Date
  status : String
  comments : String
  despatch_date : Option Date
  recipient_name : Option String
  recipient_id : Option Int
  pending_days : Int
deriving Repr, DecidableEq

/-- `getMailRecordById` from `lib/db.ts`: the same joins restricted to
`mr.id = ?`; returns `none` when the record is absent or its originator
does not resolve (the `INNER JOIN` produces no row); `pending_days` is
recomputed. -/
def getMailRecordById (st : DbState) (today : Date) (id : Int) :
    Option RecordView :=
  match st.mail_records.find? (fun mr => mr.id == id) with
  | none => none
  | some mr =>
    match findDirectorateById st mr.originator_id with
    | none => none
    | some d1 =>
      let d2 := mr.recipient_id.bind (findDirectorateById st)
      some {
        id := mr.id
        document_title := mr.document_title
        originator := d1.name
        originator_id := d1.id
        received_date := mr.received_date
        status := mr.status
        comments := mr.comments
        despatch_date := mr.despatch_date
        recipient_name := d2.map (fun d => d.name)
        recipient_id := d2.map (fun d => d.id)
        pending_days := calculatePendingDays today mr.received_date mr.despatch_date }

/-- Ordering relation of `ORDER BY name` on directorates. -/
def dirNameLe (a b : Directorate) : Prop := a.name ≤ b.name

instance : DecidableRel dirNameLe :=
  fun a b => inferInstanceAs (Decidable (a.name ≤ b.name))

instance : IsTotal Directorate dirNameLe := ⟨fun a b => le_total a.name b.name⟩

instance : IsTrans Directorate dirNameLe := ⟨fun _ _ _ h1 h2 => le_trans h1 h2⟩

/-- Ordering relation of `ORDER BY name` on status entries. -/
def statusNameLe (a b : StatusEntry) : Prop := a.name ≤ b.name

instance : DecidableRel statusNameLe :=
  fun a b => inferInstanceAs (Decidable (a.name ≤ b.name))

instance : IsTotal StatusEntry statusNameLe := ⟨fun a b => le_total a.name b.name⟩

instance : IsTrans StatusEntry statusNameLe := ⟨fun _ _ _ h1 h2 => le_trans h1 h2⟩

/-- `getAllDirectorates` from `lib/db.ts` (`SELECT * ... ORDER BY name`). -/
def getAllDirectorates (st : DbState) : List Directorate :=
  st.directorates.insertionSort dirNameLe

/-- `getAllStatusEntries` from `lib/db.ts` (`SELECT id, name, color ...
ORDER BY name`). -/
def getAllStatusEntries (st : DbState) : List StatusEntry :=
  st.status_entries.insertionSort statusNameLe

/-- `addStatusEntry` from `lib/db.ts`: `color || DEFAULT_STATUS_COLOR`,
then an INSERT whose UNIQUE(name) violation surfaces as "already
exists". -/
def addStatusEntry (st : DbState) (name color : String) :
    Except DbError (DbState × StatusEntry) :=
  let finalColor := if color == "" then DEFAULT_STATUS_COLOR else color
  if st.status_entries.any (fun s => s.name == name) then
    .error .alreadyExists
  else
    let entry : StatusEntry := { id := st.nextStatusId, name := name, color := finalColor }
    .ok ({ st with
      status_entries := st.status_entries ++ [entry]
      nextStatusId := st.nextStatusId + 1 }, entry)

/-- `deleteDirectorate` from `lib/db.ts`: 404-style error when the id is
unknown, "Cannot delete" when any mail record references it as originator
or recipient (`originator_id = ? OR recipient_id = ?`; a NULL
`recipient_id` compares false), otherwise `DELETE WHERE id = ?` (with the
source's dead `changes === 0` re-check kept). -/
def deleteDirectorate (st : DbState) (id : Int) : Except DbError DbState :=
  match findDirectorateById st id with
  | none => .error .notFound
  | some _ =>
    let count := (st.mail_records.filter
      (fun mr => mr.originator_id == id || mr.recipient_id == some id)).length
    if count > 0 then
      .error (.cannotDelete count)
    else
      let changes := (st.directorates.filter (fun d => d.id == id)).length
      if changes == 0 then .error .couldNotDelete
      else .ok { st with directorates := st.directorates.filter (fun d => d.id != id) }

/-- `deleteStatusEntry` from `lib/db.ts`: 404-style error when the id is
unknown, "Cannot delete" when any mail record's `status` string equals the
entry's name, otherwise `DELETE WHERE id = ?` (dead `changes === 0`
re-check kept). -/
def deleteStatusEntry (st : DbState) (id : Int) : Except DbError DbState :=
  match st.status_entries.find? (fun s => s.id == id) with
  | none => .error .notFound
  | some entry =>
    let count := (st.mail_records.filter (fun mr => mr.status == entry.name)).length
    if count > 0 then
      .error (.cannotDelete count)
    else
      let changes := (st.status_entries.filter (fun s => s.id == id)).length
      if changes == 0 then .error .couldNotDelete
      else .ok { st with status_entries := st.status_entries.filter (fun s => s.id != id) }

/-- `deleteMailRecords` from `lib/db.ts`: one `DELETE WHERE id = ?` per
listed id inside a transaction; ids matching no row simply delete zero
rows, no error is thrown. -/
def deleteMailRecords (st : DbState) (ids : List Int) : DbState :=
  { st with mail_records := st.mail_records.filter (fun mr => !(ids.contains mr.id)) }

/-- `deleteAllMailRecords` from `lib/db.ts`. -/
def deleteAllMailRecords (st : DbState) : DbState :=
  { st with mail_records := [] }

/-- An element of the `records` array passed to `addMailRecords` (the
TypeScript parameter type).  `none` is an absent (`undefined`) field;
`despatch_date` is a required-but-nullable field, so its `none` is
JavaScript `null`. -/
structure MailRecordInput where
  document_title : String
  originator : Option String
  originator_id : Option Int
  received_date : Date
  status : String
  comments : String
  despatch_date : Option Date
  recipient_name : Option String
  recipient_id : Option Int
deriving Repr, DecidableEq

/-- The `getDirectorateId` helper inside `addMailRecords`: the name must
already exist in the master list, no auto-creation. -/
def getDirectorateId (st : DbState) (name : String) : Except DbError Int :=
  match getDirectorateByName st name with
  | none => .error (.missingMaster name)
  | some existing => .ok existing.id

/-- Originator resolution of one batch record: a truthy `originator` name
is looked up (and must exist); otherwise a truthy `originator_id` is used
as-is, with no existence check; otherwise the record is rejected. -/
def resolveOriginator (st : DbState) (rec : MailRecordInput) : Except DbError Int :=
  if rec.originator.getD "" != "" then
    getDirectorateId st (rec.originator.getD "")
  else if rec.originator_id.getD 0 != 0 then
    .ok (rec.originator_id.getD 0)
  else
    .error .badRecordShape

/-- Recipient resolution of one batch record: a truthy `recipient_name` is
looked up (and must exist); otherwise a present `recipient_id` is used
as-is (`rec.recipient_id || null` turns 0 into NULL), with no existence
check; otherwise NULL. -/
def resolveRecipient (st : DbState) (rec : MailRecordInput) :
    Except DbError (Option Int) :=
  if rec.recipient_name.getD "" != "" then
    (getDirectorateId st (rec.recipient_name.getD "")).map (fun i => some i)
  else
    match rec.recipient_id with
    | some n => .ok (if n == 0 then none else some n)
    | none => .ok none

/-- One iteration of `addMailRecords`' transaction: resolve the two
references, recompute `pending_days`, INSERT.  The INSERT itself throws
`FOREIGN KEY constraint failed` when `originator_id` — or a non-NULL
`recipient_id` — has no `directorates` row, since better-sqlite3 enforces
the schema's foreign keys by default. -/
def insertMailRecord (st : DbState) (today : Date) (rec : MailRecordInput) :
    Except DbError DbState :=
  match resolveOriginator st rec with
  | .error e => .error e
  | .ok originatorId =>
    match resolveRecipient st rec with
    | .error e => .error e
    | .ok recipientId =>
      if !(dirIdExists st originatorId) then .error .foreignKey
      else if (match recipientId with
        | some r => !(dirIdExists st r)
        | none => false) then .error .foreignKey
      else
        let pendingDays := calculatePendingDays today rec.received_date rec.despatch_date
        let row : MailRecord := {
          id := st.nextMailId
          document_title := rec.document_title
          originator_id := originatorId
          received_date := rec.received_date
          status := rec.status
          comments := rec.comments
          despatch_date := rec.despatch_date
          recipient_id := recipientId
          pending_days := pendingDays }
        .ok { st with
          mail_records := st.mail_records ++ [row]
          nextMailId := st.nextMailId + 1 }

/-- The body of `addMailRecords`' `db.transaction`: the inserts run in
order and the first thrown error aborts the whole batch. -/
def addMailRecordsGo (today : Date) : List MailRecordInput → DbState →
    Except DbError DbState
  | [], st => .ok st
  | rec :: rest, st =>
    match insertMailRecord st today rec with
    | .error e => .error e
    | .ok st' => addMailRecordsGo today rest st'

/-- `addMailRecords` from `lib/db.ts`.  An `Except.error` result means the
transaction rolled back: the caller keeps its pre-call state. -/
def addMailRecords (st : DbState) (today : Date)
    (records : List MailRecordInput) : Except DbError DbState :=
  addMailRecordsGo today records st

/-- The `updates` parameter of `updateMailRecord`: every member optional,
and the two nullable columns distinguish present-but-null (`some none`)
from absent (`none`). -/
structure MailRecordUpdate where
  document_title : Option String
  originator_id : Option Int
  received_date : Option Date
  status : Option String
  comments : Option String
  despatch_date : Option (Option Date)
  recipient_id : Option (Option Int)
deriving Repr, DecidableEq

/-- One `field = ?` assignment pushed onto `updateMailRecord`'s dynamic SET
list, paired with the pushed value. -/
inductive SetField where
  | setTitle (v : String)
  | setOriginator (v : Int)
  | setReceived (v : Date)
  | setStatus (v : String)
  | setComments (v : String)
  | setDespatch (v : Option Date)
  | setRecipient (v : Option Int)
  | setPending (v : Int)
deriving Repr, DecidableEq

/-- Apply one SET assignment to a row. -/
def applySetField (mr : MailRecord) : SetField → MailRecord
  | .setTitle v => { mr with document_title := v }
  | .setOriginator v => { mr with originator_id := v }
  | .setReceived v => { mr with received_date := v }
  | .setStatus v => { mr with status := v }
  | .setComments v => { mr with comments := v }
  | .setDespatch v => { mr with despatch_date := v }
  | .setRecipient v => { mr with recipient_id := v }
  | .setPending v => { mr with pending_days := v }

/-- Apply a SET list left to right. -/
def applySetFields (fields : List SetField) (mr : MailRecord) : MailRecord :=
  fields.foldl applySetField mr

/-- The SET list `updateMailRecord` builds: one assignment per present
(`!== undefined`) member, in source order, then always `pending_days`. -/
def buildSetFields (updates : MailRecordUpdate) (pendingDays : Int) :
    List SetField :=
  (match updates.document_title with
    | some v => [SetField.setTitle v]
    | none => [])
  ++ (match updates.originator_id with
    | some v => [SetField.setOriginator v]
    | none => [])
  ++ (match updates.received_date with
    | some v => [SetField.setReceived v]
    | none => [])
  ++ (match updates.status with
    | some v => [SetField.setStatus v]
    | none => [])
  ++ (match updates.comments with
    | some v => [SetField.setComments v]
    | none => [])
  ++ (match updates.despatch_date with
    | some v => [SetField.setDespatch v]
    | none => [])
  ++ (match updates.recipient_id with
    | some v => [SetField.setRecipient v]
    | none => [])
  ++ [SetField.setPending pendingDays]

/-- `updateMailRecord` from `lib/db.ts`: read the current record through
`getMailRecordById` (failing with "not found" when it is absent or its
originator does not resolve), recompute `pending_days` from the merged
current-plus-new received and despatch dates (`??` resp. `!== undefined`
merging), build the dynamic SET list, and run the UPDATE on every row
matching the id.  The `fields.length === 0` and post-UPDATE
`changes === 0` error branches are kept as in the source.  The UPDATE
itself throws `FOREIGN KEY constraint failed` when it SETs
`originator_id` — or `recipient_id` with a non-null value — to an id with
no `directorates` row (better-sqlite3 enforces the schema's foreign keys
by default; SQLite skips the check for child-key columns the UPDATE does
not modify). -/
def updateMailRecord (st : DbState) (today : Date) (id : Int)
    (updates : MailRecordUpdate) : Except DbError DbState :=
  match getMailRecordById st today id with
  | none => .error .notFound
  | some currentRecord =>
    let receivedDate := updates.received_date.getD currentRecord.received_date
    let despatchDate := match updates.despatch_date with
      | some v => v
      | none => currentRecord.despatch_date
    let pendingDays := calculatePendingDays today receivedDate despatchDate
    let fields := buildSetFields updates pendingDays
    if fields.isEmpty then .error .noFields
    else if (match updates.originator_id with
      | some v => !(dirIdExists st v)
      | none => false) then .error .foreignKey
    else if (match updates.recipient_id with
      | some (some v) => !(dirIdExists st v)
      | some none => false
      | none => false) then .error .foreignKey
    else
      let changes := (st.mail_records.filter (fun mr => mr.id == id)).length
      if changes == 0 then .error .notFound
      else .ok { st with
        mail_records := st.mail_records.map
          (fun mr => if mr.id == id then applySetFields fields mr else mr) }

/-- The counts object `getMailSummary` returns. -/
structure MailSummary where
  total : Nat
  despatched : Nat
  pending : Nat
  pendingOver10Days : Nat
deriving Repr, DecidableEq

/-- Modelled from the spec: `getMailSummary(fromDate)` is imported by the
HTTP handler from the data layer but its definition is not among the
source files.  Per the spec it "returns counts (total, despatched,
pending, pendingOver10Days) for records received on/after fromDate"; a
record is despatched when its despatch date is set, pending otherwise, and
the over-10-days bucket is the pending records whose pending-days metric
exceeds 10 (the dashboard's printable report uses the same `> 10`
threshold). -/
def getMailSummary (st : DbState) (today : Date) (fromDate : Date) :
    MailSummary :=
  let rs := st.mail_records.filter (fun mr => decide (fromDate ≤ mr.received_date))
  { total := rs.length
    despatched := (rs.filter (fun mr => mr.despatch_date.isSome)).length
    pending := (rs.filter (fun mr => mr.despatch_date.isNone)).length
    pendingOver10Days := (rs.filter (fun mr => mr.despatch_date.isNone
      && decide (10 < calculatePendingDays today mr.received_date mr.despatch_date))).length }

/-- Modelled from the spec: `getEarliestMailRecordDate()` is imported by
the HTTP handler but not defined among the source files; per the spec's
operation list it returns the earliest received date (none when the table
is empty). -/
def getEarliestMailRecordDate (st : DbState) : Option Date :=
  (st.mail_records.map (fun mr => mr.received_date)).min?

/-- The `^#[0-9A-Fa-f]{6}$` test of `HEX_COLOR_REGEX` in the route
handler. -/
def isHexDigitChar (c : Char) : Bool :=
  (decide ('0' ≤ c) && decide (c ≤ '9'))
  || (decide ('a' ≤ c) && decide (c ≤ 'f'))
  || (decide ('A' ≤ c) && decide (c ≤ 'F'))

/-- Whether a string matches `HEX_COLOR_REGEX`. -/
def hexColorTest (s : String) : Bool :=
  match s.data with
  | '#' :: rest => rest.length == 6 && rest.all isHexDigitChar
  | _ => false

/-- `resolveStatusColor` from the route handler: a missing/non-string or
blank color falls back to the default, a malformed one is rejected
(`none`), a valid one is trimmed and lowercased.  The hex characters are
ASCII, so `Char.toLower` agrees with JavaScript `toLowerCase` on them. -/
def resolveStatusColor (color : Option String) : Option String :=
  match color with
  | none => some DEFAULT_STATUS_COLOR
  | some s =>
    if strTrim s == "" then some DEFAULT_STATUS_COLOR
    else
      let trimmed := strTrim s
      if hexColorTest trimmed then some (strToLower trimmed)
      else none

/-- `POST /api/mail` with a `statusEntry` body: 400 for a missing/blank
name or an unresolvable color, 409 when the name already exists, otherwise
the entry is created and echoed back.  The returned state is the database
after the call (unchanged on every error path). -/
def postStatusEntry (st : DbState) (name color : Option String) :
    Nat × DbState × Option StatusEntry :=
  match name with
  | none => (400, st, none)
  | some n =>
    if strTrim n == "" then (400, st, none)
    else
      match resolveStatusColor color with
      | none => (400, st, none)
      | some resolvedColor =>
        match addStatusEntry st (strTrim n) resolvedColor with
        | .error _ => (409, st, none)
        | .ok (st', entry) => (200, st', some entry)

/-- `POST /api/mail` with a `records` body: 400 for an empty batch, 400
when the batch fails on a master-list name, 500 on any other thrown error,
200 on success.  An error leaves the state at the pre-call database (the
transaction rolled back). -/
def postMailRecords (st : DbState) (today : Date)
    (records : List MailRecordInput) : Nat × DbState :=
  if records.isEmpty then (400, st)
  else
    match addMailRecords st today records with
    | .ok st' => (200, st')
    | .error (.missingMaster _) => (400, st)
    | .error _ => (500, st)

/-- `DELETE /api/mail`: `statusId` is dispatched first, then
`directorateId`, then `deleteAll`, then `ids` (already parsed here; the
handler's comma-split/`parseInt` 400 branch for malformed ids is outside
the model).  "Cannot delete" maps to 409, "not found" to 404, anything
else thrown to 500; mail-record deletion by ids always succeeds with
200. -/
def handleDelete (st : DbState) (directorateId statusId : Option Int)
    (ids : Option (List Int)) (deleteAll : Bool) : Nat × DbState :=
  match statusId with
  | some id =>
    (match deleteStatusEntry st id with
    | .ok st' => (200, st')
    | .error (.cannotDelete _) => (409, st)
    | .error .notFound => (404, st)
    | .error _ => (500, st))
  | none =>
    match directorateId with
    | some id =>
      (match deleteDirectorate st id with
      | .ok st' => (200, st')
      | .error (.cannotDelete _) => (409, st)
      | .error .notFound => (404, st)
      | .error _ => (500, st))
    | none =>
      if deleteAll then (200, deleteAllMailRecords st)
      else
        match ids with
        | none => (400, st)
        | some idList => (200, deleteMailRecords st idList)

/-- The body of a `GET /api/mail` response. -/
inductive GetResult where
  | earliestResp (d : Option Date)
  | errorResp
  | summaryResp (s : MailSummary)
  | statusListResp (entries : List StatusEntry)
  | recordResp (r : RecordView)
  | listingResp (records : List JoinedRecord) (allAddressees : List Directorate)
      (statusEntries : List StatusEntry)
deriving Repr

/-- `GET /api/mail` from the route handler, with the source's dispatch
order: `earliestDate`, then `summary` (400 without `fromDate`), then
`statusEntries`, then `recordId` (404 when the record is missing), then
the filtered listing.  Query parameters arrive already parsed; the
`parseInt` 400 branch for a malformed `recordId` is outside the model. -/
def handleGet (st : DbState) (today : Date)
    (search originator recipient status : String)
    (receivedFrom receivedTo despatchFrom despatchTo : Option Date)
    (recordId : Option Int) (statusEntriesFlag summaryFlag : Bool)
    (fromDate : Option Date) (earliestFlag : Bool) : Nat × GetResult :=
  if earliestFlag then
    (200, .earliestResp (getEarliestMailRecordDate st))
  else if summaryFlag then
    match fromDate with
    | none => (400, .errorResp)
    | some d => (200, .summaryResp (getMailSummary st today d))
  else if statusEntriesFlag then
    (200, .statusListResp (getAllStatusEntries st))
  else
    match recordId with
    | some id =>
      (match getMailRecordById st today id with
      | none => (404, .errorResp)
      | some r => (200, .recordResp r))
    | none =>
      (200, .listingResp
        (searchMailRecords st today search originator recipient status
          receivedFrom receivedTo despatchFrom despatchTo)
        (getAllDirectorates st)
        (getAllStatusEntries st))

/-- Invariant the spec states for `pending_days`, relative to a clock value
`today`. -/
def pendingSpec (today received : Date) (despatch : Option Date)
    (pending : Int) : Prop :=
  (despatch ≠ none → pending = 0) ∧
  (despatch = none → pending = max 0 (today - received))

/-- The row an UPDATE with the SET list of `buildSetFields` produces:
present fields overwritten, absent fields kept, `pending_days` always
written. -/
def mergedRow (updates : MailRecordUpdate) (pendingDays : Int)
    (mr : MailRecord) : MailRecord :=
  { id := mr.id
    document_title := updates.document_title.getD mr.document_title
    originator_id := updates.originator_id.getD mr.originator_id
    received_date := updates.received_date.getD mr.received_date
    status := updates.status.getD mr.status
    comments := updates.comments.getD mr.comments
    despatch_date := match updates.despatch_date with
      | some v => v
      | none => mr.despatch_date
    recipient_id := match updates.recipient_id with
      | some v => v
      | none => mr.recipient_id
    pending_days := pendingDays }

/-- A batch record whose originator or recipient is given by a (truthy)
name missing from the master list. -/
def badNameRecord (st : DbState) (rec : MailRecordInput) : Prop :=
  (∃ nm, rec.originator = some nm ∧ nm ≠ "" ∧
    getDirectorateByName st nm = none) ∨
  (∃ nm, rec.recipient_name = some nm ∧ nm ≠ "" ∧
    getDirectorateByName st nm = none)

/-- A batch entry that supplies its references as (truthy) numeric ids:
falsy `originator` name, truthy `originator_id`, falsy `recipient_name`. -/
def idBasedInput (rec : MailRecordInput) : Prop :=
  (rec.originator = none ∨ rec.originator = some "") ∧
  (∃ n, rec.originator_id = some n ∧ n ≠ 0) ∧
  (rec.recipient_name = none ∨ rec.recipient_name = some "")

/-- The row an id-based batch entry inserts. -/
def idBasedRow (nextId : Int) (today : Date) (rec : MailRecordInput) :
    MailRecord :=
  { id := nextId
    document_title := rec.document_title
    originator_id := rec.originator_id.getD 0
    received_date := rec.received_date
    status := rec.status
    comments := rec.comments
    despatch_date := rec.despatch_date
    recipient_id := match rec.recipient_id with
      | some m => if m == 0 then none else some m
      | none => none
    pending_days := calculatePendingDays today rec.received_date rec.despatch_date }

/-- The rows an id-based batch inserts, with consecutive primary keys. -/
def idBasedRows : Int → Date → List MailRecordInput → List MailRecord
  | _, _, [] => []
  | nextId, today, r :: rs => idBasedRow nextId today r :: idBasedRows (nextId + 1) today rs

/-- An id-based batch entry whose supplied ids satisfy the engine's
foreign-key check: the originator id exists, and a non-zero supplied
recipient id exists (zero becomes NULL, which the foreign key admits). -/
def idBasedFkOk (st : DbState) (rec : MailRecordInput) : Prop :=
  dirIdExists st (rec.originator_id.getD 0) = true ∧
  (∀ m, rec.recipient_id = some m → m ≠ 0 → dirIdExists st m = true)

/-- An update whose present reference fields satisfy the engine's
foreign-key check: a SET `originator_id` exists, and a SET non-null
`recipient_id` exists. -/
def updateFkOk (st : DbState) (updates : MailRecordUpdate) : Prop :=
  (∀ v, updates.originator_id = some v → dirIdExists st v = true) ∧
  (∀ v, updates.recipient_id = some (some v) → dirIdExists st v = true)

lemma calculatePendingDays_pendingSpec (today received : Date)
    (despatch : Option Date) :
    pendingSpec today received despatch
      (calculatePendingDays today received despatch) := by
  constructor
  · intro h
    cases despatch with
    | none => exact absurd rfl h
    | some d => rfl
  · intro h
    subst h
    rfl

lemma buildSetFields_ne_nil (updates : MailRecordUpdate) (pendingDays : Int) :
    buildSetFields updates pendingDays ≠ [] := by
  unfold buildSetFields
  intro h
  simp [List.append_eq_nil] at h

lemma setPending_mem_buildSetFields (updates : MailRecordUpdate)
    (pendingDays : Int) :
    SetField.setPending pendingDays ∈ buildSetFields updates pendingDays := by
  unfold buildSetFields
  simp

/-- C10: the dynamic SET list of `updateMailRecord` always ends with the
`pending_days` assignment, so it is never empty and the
"No fields to update" error branch is unreachable for every input. -/
theorem updateMailRecord_noFields_unreachable (st : DbState) (today : Date)
    (id : Int) (updates : MailRecordUpdate) (pendingDays : Int) :
    SetField.setPending pendingDays ∈ buildSetFields updates pendingDays ∧
    (buildSetFields updates pendingDays).isEmpty = false ∧
    updateMailRecord st today id updates ≠ .error .noFields := by
  refine ⟨setPending_mem_buildSetFields updates pendingDays, ?_, ?_⟩
  · exact List.isEmpty_eq_false_iff_exists_mem.mpr
      ⟨_, setPending_mem_buildSetFields updates pendingDays⟩
  · unfold updateMailRecord
    cases h : getMailRecordById st today id with
    | none => simp
    | some cur =>
      simp only
      have hne : (buildSetFields updates
          (calculatePendingDays today
            (updates.received_date.getD cur.received_date)
            (match updates.despatch_date with
              | some v => v
              | none => cur.despatch_date))).isEmpty = false := by
        rw [List.isEmpty_eq_false_iff_exists_mem]
        exact ⟨_, setPending_mem_buildSetFields updates _⟩
      rw [hne]
      simp only [Bool.false_eq_true, if_false]
      split
      · simp
      · split
        · simp
        · split
          · simp
          · simp

lemma applySetFields_append (f1 f2 : List SetField) (mr : MailRecord) :
    applySetFields (f1 ++ f2) mr = applySetFields f2 (applySetFields f1 mr) := by
  unfold applySetFields
  exact List.foldl_append _ _ _ _

lemma applySetFields_buildSetFields (updates : MailRecordUpdate)
    (pendingDays : Int) (mr : MailRecord) :
    applySetFields (buildSetFields updates pendingDays) mr
      = mergedRow updates pendingDays mr := by
  obtain ⟨t, o, rcv, s, c, dsp, rcp⟩ := updates
  cases t <;> cases o <;> cases rcv <;> cases s <;> cases c <;> cases dsp <;>
    cases rcp <;> rfl

lemma getMailRecordById_some_elim {st : DbState} {today : Date} {id : Int}
    {cur : RecordView} (h : getMailRecordById st today id = some cur) :
    ∃ mr ∈ st.mail_records,
      st.mail_records.find? (fun r => r.id == id) = some mr ∧
      mr.id = id ∧
      cur.id = mr.id ∧
      cur.received_date = mr.received_date ∧
      cur.despatch_date = mr.despatch_date ∧
      cur.pending_days = calculatePendingDays today mr.received_date mr.despatch_date := by
  unfold getMailRecordById at h
  cases hf : st.mail_records.find? (fun r => r.id == id) with
  | none => rw [hf] at h; exact absurd h (by simp)
  | some mr =>
    rw [hf] at h
    dsimp only at h
    have hmem := List.mem_of_find?_eq_some hf
    have hid : mr.id = id := by
      have := List.find?_some hf
      simpa using this
    cases hd1 : findDirectorateById st mr.originator_id with
    | none => rw [hd1] at h; exact absurd h (by simp)
    | some d1 =>
      rw [hd1] at h
      dsimp only at h
      simp only [Option.some.injEq] at h
      refine ⟨mr, hmem, rfl, hid, ?_, ?_, ?_, ?_⟩ <;> rw [← h]

/-- Characterization of a successful `updateMailRecord`: the UPDATE maps
every row whose id matches to its merged version, where the recomputed
`pending_days` is taken from the merged current-plus-new received and
despatch dates. -/
lemma updateMailRecord_ok_eq {st : DbState} {today : Date} {id : Int}
    {updates : MailRecordUpdate} {cur : RecordView}
    (hcur : getMailRecordById st today id = some cur)
    (hfk : updateFkOk st updates) :
    updateMailRecord st today id updates = .ok { st with
      mail_records := st.mail_records.map
        (fun mr => if mr.id == id then
          mergedRow updates
            (calculatePendingDays today
              (updates.received_date.getD cur.received_date)
              (match updates.despatch_date with
                | some v => v
                | none => cur.despatch_date)) mr
          else mr) } := by
  obtain ⟨mr0, hmem, hf, hid, _⟩ := getMailRecordById_some_elim hcur
  unfold updateMailRecord
  rw [hcur]
  simp only
  have hne : (buildSetFields updates
      (calculatePendingDays today
        (updates.received_date.getD cur.received_date)
        (match updates.despatch_date with
          | some v => v
          | none => cur.despatch_date))).isEmpty = false := by
    rw [List.isEmpty_eq_false_iff_exists_mem]
    exact ⟨_, setPending_mem_buildSetFields updates _⟩
  rw [hne]
  simp only [Bool.false_eq_true, if_false]
  split
  · rename_i hcond
    exfalso
    cases ho : updates.originator_id with
    | none => rw [ho] at hcond; simp at hcond
    | some v => rw [ho] at hcond; simp [hfk.1 v ho] at hcond
  · split
    · rename_i hcond
      exfalso
      cases ho : updates.recipient_id with
      | none => rw [ho] at hcond; simp at hcond
      | some o =>
        cases o with
        | none => rw [ho] at hcond; simp at hcond
        | some v => rw [ho] at hcond; simp [hfk.2 v ho] at hcond
    · have hchanges : ((st.mail_records.filter (fun mr => mr.id == id)).length == 0) = false := by
        have : mr0 ∈ st.mail_records.filter (fun mr => mr.id == id) := by
          rw [List.mem_filter]
          exact ⟨hmem, by simp [hid]⟩
        rcases List.exists_cons_of_ne_nil (List.ne_nil_of_mem this) with ⟨a, l, hal⟩
        simp [hal]
      rw [hchanges]
      simp only [Bool.false_eq_true, if_false, applySetFields_buildSetFields]

lemma updateMailRecord_ok_elim {st : DbState} {today : Date} {id : Int}
    {updates : MailRecordUpdate} {st' : DbState}
    (h : updateMailRecord st today id updates = .ok st') :
    ∃ cur, getMailRecordById st today id = some cur ∧
      st'.mail_records = st.mail_records.map
        (fun mr => if mr.id == id then
          mergedRow updates
            (calculatePendingDays today
              (updates.received_date.getD cur.received_date)
              (match updates.despatch_date with
                | some v => v
                | none => cur.despatch_date)) mr
          else mr) := by
  unfold updateMailRecord at h
  cases hcur : getMailRecordById st today id with
  | none => rw [hcur] at h; exact absurd h (by simp)
  | some cur =>
    rw [hcur] at h
    dsimp only at h
    split at h
    · exact absurd h (by simp)
    · split at h
      · exact absurd h (by simp)
      · split at h
        · exact absurd h (by simp)
        · split at h
          · exact absurd h (by simp)
          · simp only [Except.ok.injEq] at h
            refine ⟨cur, rfl, ?_⟩
            rw [← h]
            simp only [applySetFields_buildSetFields]

/-- C5: `updateMailRecord(id, partialFields)` is a partial patch: every
present field is written (including present-but-null `despatch_date` and
`recipient_id`, distinguished from absent), every absent field keeps its
prior value, rows with other ids are untouched, and `pending_days` is
always rewritten, recomputed from the merged current-plus-new
`received_date` and `despatch_date`. -/
theorem updateMailRecord_partial_patch (st : DbState) (today : Date)
    (id : Int) (updates : MailRecordUpdate) (mr : MailRecord)
    (cur : RecordView)
    (hcur : getMailRecordById st today id = some cur)
    (hfk : updateFkOk st updates)
    (hmr : mr ∈ st.mail_records) (hid : mr.id = id)
    (hnd : (st.mail_records.map MailRecord.id).Nodup) :
    ∃ st', updateMailRecord st today id updates = .ok st' ∧
      st'.directorates = st.directorates ∧
      st'.status_entries = st.status_entries ∧
      st'.mail_records.length = st.mail_records.length ∧
      (∀ r ∈ st.mail_records, r.id ≠ id → r ∈ st'.mail_records) ∧
      ({ id := mr.id
         document_title := updates.document_title.getD mr.document_title
         originator_id := updates.originator_id.getD mr.originator_id
         received_date := updates.received_date.getD mr.received_date
         status := updates.status.getD mr.status
         comments := updates.comments.getD mr.comments
         despatch_date := match updates.despatch_date with
           | some v => v
           | none => mr.despatch_date
         recipient_id := match updates.recipient_id with
           | some v => v
           | none => mr.recipient_id
         pending_days := calculatePendingDays today
           (updates.received_date.getD mr.received_date)
           (match updates.despatch_date with
             | some v => v
             | none => mr.despatch_date) } : MailRecord) ∈ st'.mail_records := by
  obtain ⟨mr0, hmem0, hf0, hid0, _, hrecv0, hdesp0, _⟩ :=
    getMailRecordById_some_elim hcur
  have hmr0 : mr = mr0 := by
    have := List.inj_on_of_nodup_map hnd hmr hmem0
    exact this (by rw [hid, hid0])
  subst hmr0
  refine ⟨_, updateMailRecord_ok_eq hcur hfk, rfl, rfl, by simp, ?_, ?_⟩
  · intro r hr hrne
    simp only [List.mem_map]
    refine ⟨r, hr, ?_⟩
    have : (r.id == id) = false := by simp [hrne]
    simp [this]
  · simp only [List.mem_map]
    refine ⟨mr, hmr, ?_⟩
    have : (mr.id == id) = true := by simp [hid]
    rw [this]
    simp only [if_true]
    rw [hrecv0, hdesp0]
    rfl

/-- Concrete run of the partial-patch theorem: patching the title, setting
`despatch_date` to a present value, and leaving the rest absent. -/
theorem updateMailRecord_partial_patch_witness :
    ∃ st', updateMailRecord
        ⟨[⟨1, "D1"⟩], [], [⟨10, "T", 1, 100, "P", "", none, none, 5⟩], 1, 11⟩
        110 10 ⟨some "N", none, none, none, none, some (some 105), some none⟩
        = .ok st' ∧
      ({ id := 10, document_title := "N", originator_id := 1,
         received_date := 100, status := "P", comments := "",
         despatch_date := some 105, recipient_id := none,
         pending_days := 0 } : MailRecord) ∈ st'.mail_records := by
  obtain ⟨st', h1, _, _, _, _, h6⟩ := updateMailRecord_partial_patch
    ⟨[⟨1, "D1"⟩], [], [⟨10, "T", 1, 100, "P", "", none, none, 5⟩], 1, 11⟩
    110 10 ⟨some "N", none, none, none, none, some (some 105), some none⟩
    ⟨10, "T", 1, 100, "P", "", none, none, 5⟩
    ⟨10, "T", "D1", 1, 100, "P", "", none, none, none, 10⟩
    (by decide) (by constructor <;> intro v hv <;> simp at hv)
    (by decide) (by decide) (by decide)
  exact ⟨st', h1, h6⟩

lemma mem_searchMailRecords {st : DbState} {today : Date}
    {s o rc stt : String} {rf rt df dt : Option Date} {r : JoinedRecord} :
    r ∈ searchMailRecords st today s o rc stt rf rt df dt ↔
      ∃ mr ∈ st.mail_records,
        searchRow st today s o rc stt rf rt df dt mr = some r := by
  unfold searchMailRecords
  rw [(List.perm_insertionSort recvDesc _).mem_iff, List.mem_filterMap]

lemma searchRow_some_spec {st : DbState} {today : Date}
    {s o rc stt : String} {rf rt df dt : Option Date} {mr : MailRecord}
    {r : JoinedRecord}
    (h : searchRow st today s o rc stt rf rt df dt mr = some r) :
    r.id = mr.id ∧ r.document_title = mr.document_title ∧
    r.received_date = mr.received_date ∧ r.status = mr.status ∧
    r.comments = mr.comments ∧ r.despatch_date = mr.despatch_date ∧
    r.pending_days = calculatePendingDays today mr.received_date mr.despatch_date := by
  unfold searchRow at h
  cases hd : findDirectorateById st mr.originator_id with
  | none => rw [hd] at h; exact absurd h (by simp)
  | some d1 =>
    rw [hd] at h
    dsimp only at h
    split at h
    · simp only [Option.some.injEq] at h
      refine ⟨?_, ?_, ?_, ?_, ?_, ?_, ?_⟩ <;> rw [← h]
    · exact absurd h (by simp)

lemma searchMailRecords_sorted (st : DbState) (today : Date)
    (s o rc stt : String) (rf rt df dt : Option Date) :
    List.Sorted recvDesc (searchMailRecords st today s o rc stt rf rt df dt) :=
  List.sorted_insertionSort recvDesc _

lemma matchesFilters_nofilter (rf rt df dt : Option Date) (mr : MailRecord)
    (n : String) (rn : Option String) :
    matchesFilters "" "" "" "" rf rt df dt mr n rn
      = ((match rf with
          | none => true
          | some d => decide (d ≤ mr.received_date))
        && (match rt with
          | none => true
          | some d => decide (mr.received_date ≤ d))
        && (match df with
          | none => true
          | some d => match mr.despatch_date with
            | some dd => decide (d ≤ dd)
            | none => false)
        && (match dt with
          | none => true
          | some d => match mr.despatch_date with
            | some dd => decide (dd ≤ d)
            | none => false)) := by
  unfold matchesFilters
  simp

lemma matchesFilters_receivedRange_iff {s o rc stt : String}
    {df dt : Option Date} {f t : Date} {mr : MailRecord} {n : String}
    {rn : Option String} :
    matchesFilters s o rc stt (some f) (some t) df dt mr n rn = true ↔
      (matchesFilters s o rc stt none none df dt mr n rn = true ∧
        f ≤ mr.received_date ∧ mr.received_date ≤ t) := by
  unfold matchesFilters
  simp only [Bool.and_eq_true, decide_eq_true_eq]
  tauto

lemma matchesFilters_despatchRange_iff {s o rc stt : String}
    {rf rt : Option Date} {f t : Date} {mr : MailRecord} {n : String}
    {rn : Option String} :
    matchesFilters s o rc stt rf rt (some f) (some t) mr n rn = true ↔
      (matchesFilters s o rc stt rf rt none none mr n rn = true ∧
        ∃ dd, mr.despatch_date = some dd ∧ f ≤ dd ∧ dd ≤ t) := by
  cases hd : mr.despatch_date with
  | none =>
    unfold matchesFilters
    rw [hd]
    simp
  | some dd =>
    unfold matchesFilters
    rw [hd]
    simp only [Bool.and_eq_true, decide_eq_true_eq, Option.some.injEq,
      exists_eq_left']
    tauto

lemma searchRow_receivedRange_iff {st : DbState} {today : Date}
    {s o rc stt : String} {df dt : Option Date} {f t : Date}
    {mr : MailRecord} {r : JoinedRecord} :
    searchRow st today s o rc stt (some f) (some t) df dt mr = some r ↔
      (searchRow st today s o rc stt none none df dt mr = some r ∧
        f ≤ mr.received_date ∧ mr.received_date ≤ t) := by
  unfold searchRow
  cases hd : findDirectorateById st mr.originator_id with
  | none => simp
  | some d1 =>
    dsimp only
    by_cases h1 : matchesFilters s o rc stt (some f) (some t) df dt mr d1.name
        ((mr.recipient_id.bind (findDirectorateById st)).map (fun d => d.name)) = true
    · have h2 := matchesFilters_receivedRange_iff.mp h1
      rw [if_pos h1, if_pos h2.1]
      exact ⟨fun h => ⟨h, h2.2.1, h2.2.2⟩, fun h => h.1⟩
    · rw [if_neg h1]
      constructor
      · intro h; exact absurd h (by simp)
      · rintro ⟨hrow, hf, ht⟩
        by_cases h2 : matchesFilters s o rc stt none none df dt mr d1.name
            ((mr.recipient_id.bind (findDirectorateById st)).map (fun d => d.name)) = true
        · exact absurd (matchesFilters_receivedRange_iff.mpr ⟨h2, hf, ht⟩) h1
        · rw [if_neg h2] at hrow
          exact absurd hrow (by simp)

lemma searchRow_despatchRange_iff {st : DbState} {today : Date}
    {s o rc stt : String} {rf rt : Option Date} {f t : Date}
    {mr : MailRecord} {r : JoinedRecord} :
    searchRow st today s o rc stt rf rt (some f) (some t) mr = some r ↔
      (searchRow st today s o rc stt rf rt none none mr = some r ∧
        ∃ dd, mr.despatch_date = some dd ∧ f ≤ dd ∧ dd ≤ t) := by
  unfold searchRow
  cases hd : findDirectorateById st mr.originator_id with
  | none => simp
  | some d1 =>
    dsimp only
    by_cases h1 : matchesFilters s o rc stt rf rt (some f) (some t) mr d1.name
        ((mr.recipient_id.bind (findDirectorateById st)).map (fun d => d.name)) = true
    · have h2 := matchesFilters_despatchRange_iff.mp h1
      rw [if_pos h1, if_pos h2.1]
      exact ⟨fun h => ⟨h, h2.2⟩, fun h => h.1⟩
    · rw [if_neg h1]
      constructor
      · intro h; exact absurd h (by simp)
      · rintro ⟨hrow, hdd⟩
        by_cases h2 : matchesFilters s o rc stt rf rt none none mr d1.name
            ((mr.recipient_id.bind (findDirectorateById st)).map (fun d => d.name)) = true
        · exact absurd (matchesFilters_despatchRange_iff.mpr ⟨h2, hdd⟩) h1
        · rw [if_neg h2] at hrow
          exact absurd hrow (by simp)

lemma insertMailRecord_ok_spec {st : DbState} {today : Date}
    {rec : MailRecordInput} {st' : DbState}
    (h : insertMailRecord st today rec = .ok st') :
    st'.directorates = st.directorates ∧
    st'.status_entries = st.status_entries ∧
    ∃ row : MailRecord, st'.mail_records = st.mail_records ++ [row] ∧
      row.received_date = rec.received_date ∧
      row.despatch_date = rec.despatch_date ∧
      row.pending_days = calculatePendingDays today rec.received_date rec.despatch_date := by
  unfold insertMailRecord at h
  cases ho : resolveOriginator st rec with
  | error e => rw [ho] at h; exact absurd h (by simp)
  | ok oid =>
    rw [ho] at h
    dsimp only at h
    cases hr : resolveRecipient st rec with
    | error e => rw [hr] at h; exact absurd h (by simp)
    | ok rid =>
      rw [hr] at h
      dsimp only at h
      split at h
      · exact absurd h (by simp)
      · split at h
        · exact absurd h (by simp)
        · simp only [Except.ok.injEq] at h
          rw [← h]
          exact ⟨rfl, rfl, _, rfl, rfl, rfl, rfl⟩

lemma addMailRecordsGo_ok_spec (today : Date) :
    ∀ (recs : List MailRecordInput) (st st' : DbState),
      addMailRecordsGo today recs st = .ok st' →
      st'.directorates = st.directorates ∧
      st'.status_entries = st.status_entries ∧
      ∃ new : List MailRecord, st'.mail_records = st.mail_records ++ new ∧
        ∀ r ∈ new, r.pending_days
          = calculatePendingDays today r.received_date r.despatch_date := by
  intro recs
  induction recs with
  | nil =>
    intro st st' h
    unfold addMailRecordsGo at h
    simp only [Except.ok.injEq] at h
    rw [← h]
    exact ⟨rfl, rfl, [], by simp, by simp⟩
  | cons rec rest ih =>
    intro st st' h
    unfold addMailRecordsGo at h
    cases hi : insertMailRecord st today rec with
    | error e => rw [hi] at h; exact absurd h (by simp)
    | ok st1 =>
      rw [hi] at h
      dsimp only at h
      obtain ⟨hd1, hs1, row, hrow, hrecv, hdesp, hpend⟩ :=
        insertMailRecord_ok_spec hi
      obtain ⟨hd2, hs2, new, hnew, hinv⟩ := ih st1 st' h
      refine ⟨hd2.trans hd1, hs2.trans hs1, row :: new, ?_, ?_⟩
      · rw [hnew, hrow, List.append_assoc]
        rfl
      · intro r hr
        rcases List.mem_cons.mp hr with hre | hrn
        · rw [hre, hpend, ← hrecv, ← hdesp]
        · exact hinv r hrn

lemma getDirectorateByName_congr {st1 st2 : DbState} (nm : String)
    (h : st1.directorates = st2.directorates) :
    getDirectorateByName st1 nm = getDirectorateByName st2 nm := by
  unfold getDirectorateByName
  rw [h]

lemma insertMailRecord_error_of_badName {st0 st : DbState} {today : Date}
    {rec : MailRecordInput} (hbad : badNameRecord st0 rec)
    (hdirs : st.directorates = st0.directorates) :
    ∃ e, insertMailRecord st today rec = .error e := by
  rcases hbad with ⟨nm, hnm, hne, hmiss⟩ | ⟨nm, hnm, hne, hmiss⟩
  · have horig : resolveOriginator st rec = .error (.missingMaster nm) := by
      unfold resolveOriginator
      rw [hnm]
      simp only [Option.getD_some]
      rw [if_pos (by simpa using hne)]
      unfold getDirectorateId
      rw [getDirectorateByName_congr nm hdirs, hmiss]
    refine ⟨.missingMaster nm, ?_⟩
    unfold insertMailRecord
    rw [horig]
  · cases ho : resolveOriginator st rec with
    | error e =>
      refine ⟨e, ?_⟩
      unfold insertMailRecord
      rw [ho]
    | ok oid =>
      have hrcp : resolveRecipient st rec = .error (.missingMaster nm) := by
        unfold resolveRecipient
        rw [hnm]
        simp only [Option.getD_some]
        rw [if_pos (by simpa using hne)]
        unfold getDirectorateId
        rw [getDirectorateByName_congr nm hdirs, hmiss]
        rfl
      refine ⟨.missingMaster nm, ?_⟩
      unfold insertMailRecord
      rw [ho]
      dsimp only
      rw [hrcp]

lemma addMailRecordsGo_error_of_badName {st0 : DbState} {today : Date}
    {rec : MailRecordInput} (hbad : badNameRecord st0 rec) :
    ∀ (recs : List MailRecordInput) (st : DbState), rec ∈ recs →
      st.directorates = st0.directorates →
      ∃ e, addMailRecordsGo today recs st = .error e := by
  intro recs
  induction recs with
  | nil => intro st hmem; exact absurd hmem (by simp)
  | cons r rest ih =>
    intro st hmem hdirs
    rcases List.mem_cons.mp hmem with hre | hrn
    · subst hre
      obtain ⟨e, he⟩ := insertMailRecord_error_of_badName hbad hdirs
      refine ⟨e, ?_⟩
      unfold addMailRecordsGo
      rw [he]
    · cases hi : insertMailRecord st today r with
      | error e =>
        refine ⟨e, ?_⟩
        unfold addMailRecordsGo
        rw [hi]
      | ok st1 =>
        obtain ⟨hd1, _, _⟩ := insertMailRecord_ok_spec hi
        obtain ⟨e, he⟩ := ih st1 hrn (hd1.trans hdirs)
        refine ⟨e, ?_⟩
        unfold addMailRecordsGo
        rw [hi]
        exact he

/-- C1: every mail record returned by a read (`searchMailRecords`,
`getMailRecordById`) or stored by a write (`addMailRecords`,
`updateMailRecord`) carries `pending_days = 0` when `despatch_date` is
non-null and `max 0 (today - received_date)` otherwise, the value being
recomputed by the operation itself (the insert/update input types carry no
`pending_days` member at all, so it is never taken from client input). -/
theorem pending_days_recomputed :
    (∀ (st : DbState) (today : Date) (s o rc stt : String)
      (rf rt df dt : Option Date) (r : JoinedRecord),
      r ∈ searchMailRecords st today s o rc stt rf rt df dt →
      pendingSpec today r.received_date r.despatch_date r.pending_days) ∧
    (∀ (st : DbState) (today : Date) (id : Int) (r : RecordView),
      getMailRecordById st today id = some r →
      pendingSpec today r.received_date r.despatch_date r.pending_days) ∧
    (∀ (st : DbState) (today : Date) (recs : List MailRecordInput)
      (st' : DbState), addMailRecords st today recs = .ok st' →
      ∃ new : List MailRecord, st'.mail_records = st.mail_records ++ new ∧
        ∀ r ∈ new, pendingSpec today r.received_date r.despatch_date r.pending_days) ∧
    (∀ (st : DbState) (today : Date) (id : Int) (updates : MailRecordUpdate)
      (st' : DbState), (st.mail_records.map MailRecord.id).Nodup →
      updateMailRecord st today id updates = .ok st' →
      ∀ r ∈ st'.mail_records, r ∈ st.mail_records ∨
        pendingSpec today r.received_date r.despatch_date r.pending_days) := by
  refine ⟨?_, ?_, ?_, ?_⟩
  · intro st today s o rc stt rf rt df dt r hr
    obtain ⟨mr, _, hrow⟩ := mem_searchMailRecords.mp hr
    obtain ⟨_, _, hrecv, _, _, hdesp, hpend⟩ := searchRow_some_spec hrow
    rw [hrecv, hdesp, hpend]
    exact calculatePendingDays_pendingSpec today mr.received_date mr.despatch_date
  · intro st today id r hr
    obtain ⟨mr, _, _, _, _, hrecv, hdesp, hpend⟩ := getMailRecordById_some_elim hr
    rw [hrecv, hdesp, hpend]
    exact calculatePendingDays_pendingSpec today mr.received_date mr.despatch_date
  · intro st today recs st' hok
    obtain ⟨_, _, new, hnew, hinv⟩ := addMailRecordsGo_ok_spec today recs st st' hok
    refine ⟨new, hnew, ?_⟩
    intro r hr
    rw [hinv r hr]
    exact calculatePendingDays_pendingSpec today r.received_date r.despatch_date
  · intro st today id updates st' hnd hok r hr
    cases hcur : getMailRecordById st today id with
    | none =>
      unfold updateMailRecord at hok
      rw [hcur] at hok
      exact absurd hok (by simp)
    | some cur =>
      obtain ⟨cur2, hcur2, hmaprec⟩ := updateMailRecord_ok_elim hok
      rw [hcur] at hcur2
      simp only [Option.some.injEq] at hcur2
      subst hcur2
      rw [hmaprec] at hr
      simp only [List.mem_map] at hr
      obtain ⟨mr, hmr, hmap⟩ := hr
      by_cases hi : (mr.id == id) = true
      · rw [if_pos hi] at hmap
        right
        obtain ⟨mr0, hmem0, _, hid0, _, hrecv0, hdesp0, _⟩ :=
          getMailRecordById_some_elim hcur
        have hmreq : mr = mr0 := by
          have h2 := List.inj_on_of_nodup_map hnd hmr hmem0
          exact h2 (by rw [(by simpa using hi : mr.id = id), hid0])
        subst hmreq
        rw [← hmap]
        rw [hrecv0, hdesp0]
        exact calculatePendingDays_pendingSpec today _ _
      · rw [if_neg hi] at hmap
        rw [← hmap]
        exact Or.inl hmr

/-- Concrete run of the pending-days theorem: a search over a two-record
table yields the spec value for an undespatched record received 10 days
ago, and an insert stores the spec value. -/
theorem pending_days_recomputed_witness :
    pendingSpec 110 100 none 10 ∧
    (∃ new : List MailRecord,
      ∀ r ∈ new, pendingSpec 110 r.received_date r.despatch_date r.pending_days) := by
  constructor
  · exact pending_days_recomputed.1
      ⟨[⟨1, "D1"⟩, ⟨2, "D2"⟩], [], [⟨10, "Budget Report", 1, 100, "Pending", "c", none, some 2, 7⟩], 1, 11⟩
      110 "" "" "" "" none none none none
      ⟨10, "Budget Report", "D1", 100, "Pending", "c", none, some "D2", 10⟩
      (by decide)
  · obtain ⟨new, _, hinv⟩ := pending_days_recomputed.2.2.1
      ⟨[⟨1, "D1"⟩], [], [], 1, 1⟩ 110
      [⟨"T", some "D1", none, 104, "Pending", "", none, none, none⟩]
      ⟨[⟨1, "D1"⟩], [], [⟨1, "T", 1, 104, "Pending", "", none, none, 6⟩], 1, 2⟩
      (by rfl)
    exact ⟨new, hinv⟩

/-- C2: a batch handed to `addMailRecords` containing a record whose
originator (or recipient) name is absent from the addressee master list
makes the whole call fail, and the POST handler then leaves the database
exactly as it was: zero new mail records are persisted. -/
theorem addMailRecords_batch_atomic (st : DbState) (today : Date)
    (recs : List MailRecordInput) (rec : MailRecordInput)
    (hmem : rec ∈ recs) (hbad : badNameRecord st rec) :
    (∃ e, addMailRecords st today recs = .error e) ∧
    (postMailRecords st today recs).2 = st := by
  obtain ⟨e, he⟩ := addMailRecordsGo_error_of_badName hbad recs st hmem rfl
  refine ⟨⟨e, he⟩, ?_⟩
  unfold postMailRecords addMailRecords
  rw [(by rw [List.isEmpty_eq_false_iff_exists_mem]; exact ⟨rec, hmem⟩ :
    recs.isEmpty = false)]
  simp only [Bool.false_eq_true, if_false]
  rw [he]
  cases e <;> rfl

/-- Concrete run of the batch-atomicity theorem: a two-record batch whose
second record names an unknown originator persists nothing. -/
theorem addMailRecords_batch_atomic_witness :
    (∃ e, addMailRecords ⟨[⟨1, "D1"⟩], [], [], 1, 5⟩ 100
      [⟨"A", some "D1", none, 90, "Pending", "", none, none, none⟩,
       ⟨"B", some "Ghost", none, 91, "Pending", "", none, none, none⟩]
      = .error e) ∧
    (postMailRecords ⟨[⟨1, "D1"⟩], [], [], 1, 5⟩ 100
      [⟨"A", some "D1", none, 90, "Pending", "", none, none, none⟩,
       ⟨"B", some "Ghost", none, 91, "Pending", "", none, none, none⟩]).2
      = ⟨[⟨1, "D1"⟩], [], [], 1, 5⟩ :=
  addMailRecords_batch_atomic _ 100 _
    ⟨"B", some "Ghost", none, 91, "Pending", "", none, none, none⟩
    (by decide) (Or.inl ⟨"Ghost", rfl, by decide, rfl⟩)

lemma any_iff_filter_pos {α : Type} (l : List α) (p : α → Bool) :
    l.any p = true ↔ 0 < (l.filter p).length := by
  rw [List.any_eq_true]
  constructor
  · rintro ⟨x, hx, hp⟩
    exact List.length_pos.mpr (List.ne_nil_of_mem (List.mem_filter.mpr ⟨hx, hp⟩))
  · intro h
    obtain ⟨x, hx⟩ := List.exists_mem_of_ne_nil _ (List.length_pos.mp h)
    have hm := List.mem_filter.mp hx
    exact ⟨x, hm.1, hm.2⟩

lemma nodup_filter_id : ∀ (l : List Directorate),
    (l.map Directorate.id).Nodup →
    ∀ d ∈ l, (l.filter (fun x => x.id != d.id)).length + 1 = l.length := by
  intro l
  induction l with
  | nil => intro _ d hd; exact absurd hd (by simp)
  | cons a t ih =>
    intro hnd d hd
    have hna : a.id ∉ t.map Directorate.id := by
      simp only [List.map_cons, List.nodup_cons] at hnd
      exact hnd.1
    have hnd' : (t.map Directorate.id).Nodup := by
      simp only [List.map_cons, List.nodup_cons] at hnd
      exact hnd.2
    rcases List.mem_cons.mp hd with hda | hdt
    · subst hda
      have hfa : ((fun x => x.id != d.id) d) = false := by simp
      have hft : t.filter (fun x => x.id != d.id) = t := by
        rw [List.filter_eq_self]
        intro x hx
        simp only [bne_iff_ne, ne_eq, decide_eq_true_eq]
        intro heq
        exact hna (heq ▸ List.mem_map_of_mem Directorate.id hx)
      simp only [List.filter_cons, hfa, Bool.false_eq_true, if_false, hft,
        List.length_cons]
    · have hfa : ((fun x => x.id != d.id) a) = true := by
        simp only [bne_iff_ne, ne_eq, decide_eq_true_eq]
        intro heq
        exact hna (heq ▸ List.mem_map_of_mem Directorate.id hdt)
      have := ih hnd' d hdt
      simp only [List.filter_cons, hfa, if_true, List.length_cons]
      omega

/-- C3: `deleteDirectorate` fails with the "Cannot delete" conflict (HTTP
409 through the DELETE handler) and removes nothing whenever any mail
record references the addressee as originator or recipient; with no
reference it succeeds, removing exactly that row.  Likewise
`deleteStatusEntry` conflicts whenever any record's status string equals
the entry's name. -/
theorem delete_inuse_conflict (st : DbState) (id : Int) :
    (∀ d : Directorate, findDirectorateById st id = some d →
      ((st.mail_records.any
          (fun mr => mr.originator_id == id || mr.recipient_id == some id)) = true →
        (∃ n, deleteDirectorate st id = .error (.cannotDelete n)) ∧
        handleDelete st (some id) none none false = (409, st)) ∧
      ((st.mail_records.any
          (fun mr => mr.originator_id == id || mr.recipient_id == some id)) = false →
        (st.directorates.map Directorate.id).Nodup →
        ∃ st', deleteDirectorate st id = .ok st' ∧
          handleDelete st (some id) none none false = (200, st') ∧
          st'.directorates = st.directorates.filter (fun x => x.id != id) ∧
          st'.directorates.length + 1 = st.directorates.length ∧
          st'.mail_records = st.mail_records ∧
          st'.status_entries = st.status_entries)) ∧
    (∀ e : StatusEntry, st.status_entries.find? (fun x => x.id == id) = some e →
      (st.mail_records.any (fun mr => mr.status == e.name)) = true →
      (∃ n, deleteStatusEntry st id = .error (.cannotDelete n)) ∧
      handleDelete st none (some id) none false = (409, st)) := by
  constructor
  · intro d hfind
    have hdmem := List.mem_of_find?_eq_some hfind
    have hdid : d.id = id := by
      have := List.find?_some hfind
      simpa using this
    constructor
    · intro hused
      have hpos := (any_iff_filter_pos _ _).mp hused
      have hdel : deleteDirectorate st id
          = .error (.cannotDelete (st.mail_records.filter
            (fun mr => mr.originator_id == id || mr.recipient_id == some id)).length) := by
        unfold deleteDirectorate
        rw [hfind]
        dsimp only
        rw [if_pos hpos]
      refine ⟨⟨_, hdel⟩, ?_⟩
      unfold handleDelete
      dsimp only
      rw [hdel]
    · intro hunused hnd
      have hnpos : ¬(0 < (st.mail_records.filter
          (fun mr => mr.originator_id == id || mr.recipient_id == some id)).length) := by
        rw [← any_iff_filter_pos]
        simp [hunused]
      have hch : ((st.directorates.filter (fun x => x.id == id)).length == 0) = false := by
        have hmf : d ∈ st.directorates.filter (fun x => x.id == id) :=
          List.mem_filter.mpr ⟨hdmem, by simp [hdid]⟩
        rcases List.exists_cons_of_ne_nil (List.ne_nil_of_mem hmf) with ⟨a, l, hal⟩
        simp [hal]
      have hdel : deleteDirectorate st id
          = .ok { st with directorates := st.directorates.filter (fun x => x.id != id) } := by
        unfold deleteDirectorate
        rw [hfind]
        dsimp only
        rw [if_neg hnpos, hch]
        simp only [Bool.false_eq_true, if_false]
      refine ⟨_, hdel, ?_, rfl, ?_, rfl, rfl⟩
      · unfold handleDelete
        dsimp only
        rw [hdel]
      · have := nodup_filter_id st.directorates hnd d hdmem
        rw [hdid] at this
        exact this
  · intro e hfind hused
    have hpos := (any_iff_filter_pos _ _).mp hused
    have hdel : deleteStatusEntry st id
        = .error (.cannotDelete (st.mail_records.filter
          (fun mr => mr.status == e.name)).length) := by
      unfold deleteStatusEntry
      rw [hfind]
      dsimp only
      rw [if_pos hpos]
    refine ⟨⟨_, hdel⟩, ?_⟩
    unfold handleDelete
    dsimp only
    rw [hdel]

/-- Concrete runs of the delete-conflict theorem: deleting a referenced
addressee yields 409 and deleting an unreferenced one removes exactly its
row; deleting an in-use status yields 409. -/
theorem delete_inuse_conflict_witness :
    handleDelete ⟨[⟨1, "D1"⟩], [], [⟨10, "T", 1, 100, "P", "", none, none, 0⟩], 1, 11⟩
      (some 1) none none false
      = (409, ⟨[⟨1, "D1"⟩], [], [⟨10, "T", 1, 100, "P", "", none, none, 0⟩], 1, 11⟩) ∧
    (∃ st', deleteDirectorate ⟨[⟨1, "D1"⟩, ⟨2, "D2"⟩], [], [⟨10, "T", 1, 100, "P", "", none, none, 0⟩], 1, 11⟩ 2
      = .ok st' ∧ st'.directorates.length + 1 = 2) ∧
    handleDelete ⟨[], [⟨5, "Pending", "#2563eb"⟩], [⟨10, "T", 1, 100, "Pending", "", none, none, 0⟩], 6, 11⟩
      none (some 5) none false
      = (409, ⟨[], [⟨5, "Pending", "#2563eb"⟩], [⟨10, "T", 1, 100, "Pending", "", none, none, 0⟩], 6, 11⟩) := by
  refine ⟨?_, ?_, ?_⟩
  · exact (((delete_inuse_conflict
      ⟨[⟨1, "D1"⟩], [], [⟨10, "T", 1, 100, "P", "", none, none, 0⟩], 1, 11⟩ 1).1
      ⟨1, "D1"⟩ (by decide)).1 (by decide)).2
  · obtain ⟨st', h1, _, _, h4, _, _⟩ := (((delete_inuse_conflict
      ⟨[⟨1, "D1"⟩, ⟨2, "D2"⟩], [], [⟨10, "T", 1, 100, "P", "", none, none, 0⟩], 1, 11⟩ 2).1
      ⟨2, "D2"⟩ (by decide)).2 (by decide) (by decide))
    exact ⟨st', h1, h4⟩
  · exact ((delete_inuse_conflict
      ⟨[], [⟨5, "Pending", "#2563eb"⟩], [⟨10, "T", 1, 100, "Pending", "", none, none, 0⟩], 6, 11⟩ 5).2
      ⟨5, "Pending", "#2563eb"⟩ (by decide) (by decide)).2

lemma length_filterMap_isSome {α β : Type} (f : α → Option β) :
    ∀ l : List α, (∀ a ∈ l, (f a).isSome = true) →
      (l.filterMap f).length = l.length := by
  intro l
  induction l with
  | nil => intro _; rfl
  | cons a t ih =>
    intro h
    cases hf : f a with
    | none => exact absurd (h a (by simp)) (by simp [hf])
    | some b =>
      rw [List.filterMap_cons_some hf]
      simp only [List.length_cons]
      rw [ih (fun x hx => h x (by simp [hx]))]

lemma searchRow_nofilter_isSome (today : Date) {st : DbState}
    {mr : MailRecord} (h : ∃ d ∈ st.directorates, d.id = mr.originator_id) :
    (searchRow st today "" "" "" "" none none none none mr).isSome = true := by
  obtain ⟨d, hdm, hdi⟩ := h
  have hfind : ∃ d1, findDirectorateById st mr.originator_id = some d1 := by
    rw [← Option.isSome_iff_exists]
    unfold findDirectorateById
    rw [List.find?_isSome]
    exact ⟨d, hdm, by simp [hdi]⟩
  obtain ⟨d1, hd1⟩ := hfind
  unfold searchRow
  rw [hd1]
  dsimp only
  rw [if_pos (by rw [matchesFilters_nofilter]; rfl)]
  rfl

/-- C4: with every filter argument empty, `searchMailRecords` returns all
mail records (one row each, carrying the record's fields), ordered by
`received_date` descending; adding a received-date or despatch-date range
filter returns exactly the rows of the unfiltered call whose date lies
within the inclusive bounds, so each added filter narrows the result. -/
theorem search_filters_spec :
    (∀ (st : DbState) (today : Date),
      List.Sorted recvDesc
        (searchMailRecords st today "" "" "" "" none none none none)) ∧
    (∀ (st : DbState) (today : Date),
      (∀ mr ∈ st.mail_records, ∃ d ∈ st.directorates, d.id = mr.originator_id) →
      (searchMailRecords st today "" "" "" "" none none none none).length
        = st.mail_records.length ∧
      ∀ mr ∈ st.mail_records,
        ∃ r ∈ searchMailRecords st today "" "" "" "" none none none none,
          r.id = mr.id ∧ r.received_date = mr.received_date ∧
          r.despatch_date = mr.despatch_date ∧
          r.document_title = mr.document_title ∧ r.status = mr.status) ∧
    (∀ (st : DbState) (today : Date) (s o rc stt : String)
      (df dt : Option Date) (f t : Date) (r : JoinedRecord),
      r ∈ searchMailRecords st today s o rc stt (some f) (some t) df dt ↔
        (r ∈ searchMailRecords st today s o rc stt none none df dt ∧
          f ≤ r.received_date ∧ r.received_date ≤ t)) ∧
    (∀ (st : DbState) (today : Date) (s o rc stt : String)
      (rf rt : Option Date) (f t : Date) (r : JoinedRecord),
      r ∈ searchMailRecords st today s o rc stt rf rt (some f) (some t) ↔
        (r ∈ searchMailRecords st today s o rc stt rf rt none none ∧
          ∃ dd, r.despatch_date = some dd ∧ f ≤ dd ∧ dd ≤ t)) := by
  have hrecv : ∀ (st : DbState) (today : Date) (s o rc stt : String)
      (df dt : Option Date) (f t : Date) (r : JoinedRecord),
      r ∈ searchMailRecords st today s o rc stt (some f) (some t) df dt ↔
        (r ∈ searchMailRecords st today s o rc stt none none df dt ∧
          f ≤ r.received_date ∧ r.received_date ≤ t) := by
    intro st today s o rc stt df dt f t r
    rw [mem_searchMailRecords, mem_searchMailRecords]
    constructor
    · rintro ⟨mr, hm, hrow⟩
      obtain ⟨hrow0, h1, h2⟩ := searchRow_receivedRange_iff.mp hrow
      obtain ⟨_, _, hre, _⟩ := searchRow_some_spec hrow0
      exact ⟨⟨mr, hm, hrow0⟩, by rw [hre]; exact h1, by rw [hre]; exact h2⟩
    · rintro ⟨⟨mr, hm, hrow0⟩, h1, h2⟩
      obtain ⟨_, _, hre, _⟩ := searchRow_some_spec hrow0
      rw [hre] at h1 h2
      exact ⟨mr, hm, searchRow_receivedRange_iff.mpr ⟨hrow0, h1, h2⟩⟩
  have hdesp : ∀ (st : DbState) (today : Date) (s o rc stt : String)
      (rf rt : Option Date) (f t : Date) (r : JoinedRecord),
      r ∈ searchMailRecords st today s o rc stt rf rt (some f) (some t) ↔
        (r ∈ searchMailRecords st today s o rc stt rf rt none none ∧
          ∃ dd, r.despatch_date = some dd ∧ f ≤ dd ∧ dd ≤ t) := by
    intro st today s o rc stt rf rt f t r
    rw [mem_searchMailRecords, mem_searchMailRecords]
    constructor
    · rintro ⟨mr, hm, hrow⟩
      obtain ⟨hrow0, hdd⟩ := searchRow_despatchRange_iff.mp hrow
      obtain ⟨_, _, _, _, _, hde, _⟩ := searchRow_some_spec hrow0
      exact ⟨⟨mr, hm, hrow0⟩, by rw [hde]; exact hdd⟩
    · rintro ⟨⟨mr, hm, hrow0⟩, hdd⟩
      obtain ⟨_, _, _, _, _, hde, _⟩ := searchRow_some_spec hrow0
      rw [hde] at hdd
      exact ⟨mr, hm, searchRow_despatchRange_iff.mpr ⟨hrow0, hdd⟩⟩
  refine ⟨?_, ?_, hrecv, hdesp⟩
  · intro st today
    exact searchMailRecords_sorted st today "" "" "" "" none none none none
  · intro st today hwf
    constructor
    · unfold searchMailRecords
      rw [(List.perm_insertionSort recvDesc _).length_eq]
      exact length_filterMap_isSome _ _
        (fun mr hmr => searchRow_nofilter_isSome today (hwf mr hmr))
    · intro mr hmr
      have hs := searchRow_nofilter_isSome today (hwf mr hmr)
      obtain ⟨r, hr⟩ := Option.isSome_iff_exists.mp hs
      refine ⟨r, mem_searchMailRecords.mpr ⟨mr, hmr, hr⟩, ?_⟩
      obtain ⟨h1, h2, h3, h4, h5, h6, _⟩ := searchRow_some_spec hr
      exact ⟨h1, h3, h6, h2, h4⟩

/-- Concrete run of the search theorem: a two-record table is returned in
full in descending received order, and a received-date range keeps exactly
the in-range row. -/
theorem search_filters_spec_witness :
    (searchMailRecords ⟨[⟨1, "D1"⟩], [], [⟨10, "A", 1, 100, "P", "", none, none, 0⟩, ⟨11, "B", 1, 105, "P", "", none, none, 0⟩], 1, 12⟩
      110 "" "" "" "" none none none none).length = 2 ∧
    (⟨11, "B", "D1", 105, "P", "", none, none, 5⟩ : JoinedRecord) ∈
      searchMailRecords ⟨[⟨1, "D1"⟩], [], [⟨10, "A", 1, 100, "P", "", none, none, 0⟩, ⟨11, "B", 1, 105, "P", "", none, none, 0⟩], 1, 12⟩
        110 "" "" "" "" (some 101) (some 106) none none := by
  constructor
  · exact ((search_filters_spec.2.1
      ⟨[⟨1, "D1"⟩], [], [⟨10, "A", 1, 100, "P", "", none, none, 0⟩, ⟨11, "B", 1, 105, "P", "", none, none, 0⟩], 1, 12⟩
      110 (by decide)).1)
  · exact (search_filters_spec.2.2.1
      ⟨[⟨1, "D1"⟩], [], [⟨10, "A", 1, 100, "P", "", none, none, 0⟩, ⟨11, "B", 1, 105, "P", "", none, none, 0⟩], 1, 12⟩
      110 "" "" "" "" none none 101 106
      ⟨11, "B", "D1", 105, "P", "", none, none, 5⟩).mpr
      ⟨by decide, by decide, by decide⟩

lemma mem_getAllStatusEntries {st : DbState} {e : StatusEntry} :
    e ∈ getAllStatusEntries st ↔ e ∈ st.status_entries :=
  (List.perm_insertionSort statusNameLe _).mem_iff

lemma strToLower_hex_ne_empty {s : String} (hc : hexColorTest s = true) :
    (strToLower s == "") = false := by
  unfold hexColorTest at hc
  unfold strToLower
  cases hd : s.data with
  | nil => rw [hd] at hc; exact absurd hc (by simp)
  | cons a l =>
    rw [beq_eq_false_iff_ne]
    intro h
    have := congrArg String.data h
    simp at this

/-- C6: posting a status entry with a valid 6-digit hex color stores and
returns the color trimmed and lowercased (so `#2563EB` reads back as
`#2563eb`), while a color that does not match `^#[0-9A-Fa-f]{6}$` such as
`blue` is rejected with HTTP 400 and no status entry is created. -/
theorem status_color_roundtrip (st : DbState) (n : String)
    (hn : strTrim n ≠ "")
    (hfresh : ∀ e ∈ st.status_entries, e.name ≠ strTrim n) :
    (∀ c : String, hexColorTest (strTrim c) = true →
      ∃ st' entry, postStatusEntry st (some n) (some c) = (200, st', some entry) ∧
        entry.name = strTrim n ∧
        entry.color = strToLower (strTrim c) ∧
        entry ∈ getAllStatusEntries st' ∧
        st'.status_entries = st.status_entries ++ [entry]) ∧
    postStatusEntry st (some n) (some "blue") = (400, st, none) := by
  have hnb : (strTrim n == "") = false := by simp [hn]
  constructor
  · intro c hc
    have hct : strTrim c ≠ "" := by
      intro h
      rw [h] at hc
      exact absurd hc (by simp [hexColorTest])
    have hres : resolveStatusColor (some c) = some (strToLower (strTrim c)) := by
      unfold resolveStatusColor
      dsimp only
      rw [(by simp [hct] : (strTrim c == "") = false)]
      simp only [Bool.false_eq_true, if_false]
      rw [if_pos hc]
    have hany : (st.status_entries.any (fun s => s.name == strTrim n)) = false := by
      rw [List.any_eq_false]
      intro x hx
      simp [hfresh x hx]
    have hadd : addStatusEntry st (strTrim n) (strToLower (strTrim c))
        = .ok ({ st with
            status_entries := st.status_entries
              ++ [⟨st.nextStatusId, strTrim n, strToLower (strTrim c)⟩]
            nextStatusId := st.nextStatusId + 1 },
          ⟨st.nextStatusId, strTrim n, strToLower (strTrim c)⟩) := by
      unfold addStatusEntry
      rw [strToLower_hex_ne_empty hc]
      simp only [Bool.false_eq_true, if_false]
      rw [hany]
      simp only [Bool.false_eq_true, if_false]
    refine ⟨{ st with
        status_entries := st.status_entries
          ++ [⟨st.nextStatusId, strTrim n, strToLower (strTrim c)⟩]
        nextStatusId := st.nextStatusId + 1 },
      ⟨st.nextStatusId, strTrim n, strToLower (strTrim c)⟩, ?_, rfl, rfl, ?_, rfl⟩
    · unfold postStatusEntry
      dsimp only
      rw [hnb]
      simp only [Bool.false_eq_true, if_false]
      rw [hres]
      dsimp only
      rw [hadd]
    · rw [mem_getAllStatusEntries]
      simp
  · unfold postStatusEntry
    dsimp only
    rw [hnb]
    simp only [Bool.false_eq_true, if_false]
    rw [(by decide : resolveStatusColor (some "blue") = none)]

/-- Concrete run of the color round-trip theorem: `#2563EB` reads back
lowercased and `blue` is rejected with 400 against an empty status
table. -/
theorem status_color_roundtrip_witness :
    (∃ st' entry, postStatusEntry ⟨[], [], [], 1, 1⟩ (some "Done") (some "#2563EB")
      = (200, st', some entry) ∧
      entry.color = "#2563eb" ∧ entry ∈ getAllStatusEntries st') ∧
    postStatusEntry ⟨[], [], [], 1, 1⟩ (some "Done") (some "blue")
      = (400, ⟨[], [], [], 1, 1⟩, none) := by
  obtain ⟨h1, h2⟩ := status_color_roundtrip ⟨[], [], [], 1, 1⟩ "Done"
    (by decide) (by intro e he; exact absurd he (by simp))
  obtain ⟨st', entry, hpost, _, hcolor, hmem, _⟩ := h1 "#2563EB" (by decide)
  exact ⟨⟨st', entry, hpost, by rw [hcolor]; decide, hmem⟩, h2⟩

/-- C7 counterexample: a `DELETE /api/mail?ids=1` request against a
database holding no mail record with id 1 responds 200 with a success
message, not 404 — missing mail-record ids are silently ignored. -/
theorem delete_missing_ids_not_404 :
    (∀ mr ∈ (⟨[], [], [], 1, 1⟩ : DbState).mail_records, mr.id ≠ 1) ∧
    handleDelete ⟨[], [], [], 1, 1⟩ none none (some [1]) false
      = (200, ⟨[], [], [], 1, 1⟩) := by
  constructor
  · intro mr hmr
    exact absurd hmr (by simp)
  · rfl

lemma deleteDirectorate_notFound {st : DbState} {id : Int}
    (h : findDirectorateById st id = none) :
    deleteDirectorate st id = .error .notFound := by
  unfold deleteDirectorate
  rw [h]

lemma deleteStatusEntry_notFound {st : DbState} {id : Int}
    (h : st.status_entries.find? (fun s => s.id == id) = none) :
    deleteStatusEntry st id = .error .notFound := by
  unfold deleteStatusEntry
  rw [h]

lemma deleteDirectorate_inuse {st : DbState} {id : Int} {d : Directorate}
    (hfind : findDirectorateById st id = some d)
    (hused : (st.mail_records.any
      (fun mr => mr.originator_id == id || mr.recipient_id == some id)) = true) :
    deleteDirectorate st id = .error (.cannotDelete
      (st.mail_records.filter
        (fun mr => mr.originator_id == id || mr.recipient_id == some id)).length) := by
  unfold deleteDirectorate
  rw [hfind]
  dsimp only
  rw [if_pos ((any_iff_filter_pos _ _).mp hused)]

lemma deleteStatusEntry_inuse {st : DbState} {id : Int} {e : StatusEntry}
    (hfind : st.status_entries.find? (fun s => s.id == id) = some e)
    (hused : (st.mail_records.any (fun mr => mr.status == e.name)) = true) :
    deleteStatusEntry st id = .error (.cannotDelete
      (st.mail_records.filter (fun mr => mr.status == e.name)).length) := by
  unfold deleteStatusEntry
  rw [hfind]
  dsimp only
  rw [if_pos ((any_iff_filter_pos _ _).mp hused)]

/-- C7 amended: `DELETE /api/mail?ids=...` deletes the listed ids that
exist and silently ignores missing ones, always responding 200; the
404-for-missing and 409-for-in-use responses apply to the `directorateId`
and `statusId` master-list deletion targets. -/
theorem delete_route_semantics :
    (∀ (st : DbState) (ids : List Int),
      (handleDelete st none none (some ids) false).1 = 200 ∧
      ∀ mr : MailRecord,
        mr ∈ (handleDelete st none none (some ids) false).2.mail_records ↔
          (mr ∈ st.mail_records ∧ mr.id ∉ ids)) ∧
    (∀ (st : DbState) (id : Int), findDirectorateById st id = none →
      handleDelete st (some id) none none false = (404, st)) ∧
    (∀ (st : DbState) (id : Int),
      st.status_entries.find? (fun s => s.id == id) = none →
      handleDelete st none (some id) none false = (404, st)) ∧
    (∀ (st : DbState) (id : Int) (d : Directorate),
      findDirectorateById st id = some d →
      (st.mail_records.any
        (fun mr => mr.originator_id == id || mr.recipient_id == some id)) = true →
      (handleDelete st (some id) none none false).1 = 409) ∧
    (∀ (st : DbState) (id : Int) (e : StatusEntry),
      st.status_entries.find? (fun s => s.id == id) = some e →
      (st.mail_records.any (fun mr => mr.status == e.name)) = true →
      (handleDelete st none (some id) none false).1 = 409) := by
  refine ⟨?_, ?_, ?_, ?_, ?_⟩
  · intro st ids
    refine ⟨rfl, ?_⟩
    intro mr
    unfold handleDelete deleteMailRecords
    simp only [Bool.false_eq_true, if_false]
    rw [List.mem_filter]
    simp
  · intro st id h
    unfold handleDelete
    dsimp only
    rw [deleteDirectorate_notFound h]
  · intro st id h
    unfold handleDelete
    dsimp only
    rw [deleteStatusEntry_notFound h]
  · intro st id d hfind hused
    unfold handleDelete
    dsimp only
    rw [deleteDirectorate_inuse hfind hused]
  · intro st id e hfind hused
    unfold handleDelete
    dsimp only
    rw [deleteStatusEntry_inuse hfind hused]

/-- Concrete run of the amended delete theorem: deleting ids 1 and 99 from
a one-record table removes record 1, responds 200, and the master-list 404
and 409 branches fire. -/
theorem delete_route_semantics_witness :
    (handleDelete ⟨[], [], [⟨1, "T", 1, 100, "P", "", none, none, 0⟩], 1, 2⟩
      none none (some [1, 99]) false).1 = 200 ∧
    ¬((⟨1, "T", 1, 100, "P", "", none, none, 0⟩ : MailRecord) ∈
      (handleDelete ⟨[], [], [⟨1, "T", 1, 100, "P", "", none, none, 0⟩], 1, 2⟩
        none none (some [1, 99]) false).2.mail_records) ∧
    handleDelete ⟨[], [], [], 1, 1⟩ (some 7) none none false = (404, ⟨[], [], [], 1, 1⟩) ∧
    (handleDelete ⟨[⟨1, "D1"⟩], [], [⟨1, "T", 1, 100, "P", "", none, none, 0⟩], 1, 2⟩
      (some 1) none none false).1 = 409 := by
  refine ⟨?_, ?_, ?_, ?_⟩
  · exact (delete_route_semantics.1
      ⟨[], [], [⟨1, "T", 1, 100, "P", "", none, none, 0⟩], 1, 2⟩ [1, 99]).1
  · intro hmem
    have h := ((delete_route_semantics.1
      ⟨[], [], [⟨1, "T", 1, 100, "P", "", none, none, 0⟩], 1, 2⟩ [1, 99]).2
      ⟨1, "T", 1, 100, "P", "", none, none, 0⟩).mp hmem
    exact absurd h.2 (by simp)
  · exact delete_route_semantics.2.1 ⟨[], [], [], 1, 1⟩ 7 (by decide)
  · exact delete_route_semantics.2.2.2.1
      ⟨[⟨1, "D1"⟩], [], [⟨1, "T", 1, 100, "P", "", none, none, 0⟩], 1, 2⟩ 1
      ⟨1, "D1"⟩ (by decide) (by decide)

/-- C8: `GET /api/mail?summary=true&fromDate=d` returns HTTP 200 with the
`getMailSummary` object (400 when `fromDate` is missing), and
`getMailSummary` counts exactly the mail records received on or after the
given date: all of them, the despatched ones, the pending ones, and the
pending ones more than 10 days old. -/
theorem mail_summary_spec :
    (∀ (st : DbState) (today d : Date) (s o rc stt : String)
      (rf rt df dt : Option Date) (recordId : Option Int) (seFlag : Bool),
      handleGet st today s o rc stt rf rt df dt recordId seFlag true (some d) false
        = (200, .summaryResp (getMailSummary st today d))) ∧
    (∀ (st : DbState) (today : Date) (s o rc stt : String)
      (rf rt df dt : Option Date) (recordId : Option Int) (seFlag : Bool),
      handleGet st today s o rc stt rf rt df dt recordId seFlag true none false
        = (400, .errorResp)) ∧
    (∀ (st : DbState) (today d : Date),
      (getMailSummary st today d).total
        = st.mail_records.countP (fun mr => decide (d ≤ mr.received_date)) ∧
      (getMailSummary st today d).despatched
        = st.mail_records.countP
            (fun mr => decide (d ≤ mr.received_date) && mr.despatch_date.isSome) ∧
      (getMailSummary st today d).pending
        = st.mail_records.countP
            (fun mr => decide (d ≤ mr.received_date) && mr.despatch_date.isNone) ∧
      (getMailSummary st today d).pendingOver10Days
        = st.mail_records.countP
            (fun mr => decide (d ≤ mr.received_date) && (mr.despatch_date.isNone
              && decide (10 < calculatePendingDays today mr.received_date mr.despatch_date)))) := by
  refine ⟨?_, ?_, ?_⟩
  · intro st today d s o rc stt rf rt df dt recordId seFlag
    unfold handleGet
    rfl
  · intro st today s o rc stt rf rt df dt recordId seFlag
    unfold handleGet
    rfl
  · intro st today d
    unfold getMailSummary
    refine ⟨?_, ?_, ?_, ?_⟩ <;>
        simp only [List.countP_eq_length_filter, List.filter_filter] <;>
      try rfl
    all_goals
      exact congrArg List.length
        (List.filter_congr (fun a _ => by rw [Bool.and_comm]))

lemma resolveOriginator_idbased {st : DbState} {rec : MailRecordInput}
    (hor : rec.originator = none ∨ rec.originator = some "")
    {n : Int} (hoid : rec.originator_id = some n) (hn : n ≠ 0) :
    resolveOriginator st rec = .ok (rec.originator_id.getD 0) := by
  unfold resolveOriginator
  rcases hor with h1 | h1 <;>
    rw [h1] <;> rw [hoid] <;> simp [hn]

lemma resolveRecipient_idbased {st : DbState} {rec : MailRecordInput}
    (hrcp : rec.recipient_name = none ∨ rec.recipient_name = some "") :
    resolveRecipient st rec = .ok (match rec.recipient_id with
      | some m => if m == 0 then none else some m
      | none => none) := by
  unfold resolveRecipient
  rcases hrcp with h1 | h1 <;> rw [h1] <;>
    cases rec.recipient_id <;> simp

lemma insertMailRecord_idbased {st : DbState} {today : Date}
    {rec : MailRecordInput} (h : idBasedInput rec)
    (hfkok : idBasedFkOk st rec) :
    insertMailRecord st today rec = .ok { st with
      mail_records := st.mail_records ++ [idBasedRow st.nextMailId today rec]
      nextMailId := st.nextMailId + 1 } := by
  obtain ⟨hor, ⟨n, hoid, hn⟩, hrcp⟩ := h
  obtain ⟨hfo, hfr⟩ := hfkok
  unfold insertMailRecord
  rw [resolveOriginator_idbased hor hoid hn]
  dsimp only
  rw [resolveRecipient_idbased hrcp]
  rw [(by simp [hfo] : (!(dirIdExists st (rec.originator_id.getD 0))) = false)]
  simp only [Bool.false_eq_true, if_false]
  split
  · rename_i hcond
    exfalso
    cases hm : rec.recipient_id with
    | none => rw [hm] at hcond; simp at hcond
    | some m =>
      rw [hm] at hcond
      by_cases hz : m = 0
      · subst hz; simp at hcond
      · simp only [(by simp [hz] : (m == 0) = false), Bool.false_eq_true,
          if_false] at hcond
        simp [hfr m hm hz] at hcond
  · rfl

lemma insertMailRecord_idbased_fk_error {st0 st : DbState} {today : Date}
    {rec : MailRecordInput} (h : idBasedInput rec)
    (hdang : dirIdExists st0 (rec.originator_id.getD 0) = false)
    (hdirs : st.directorates = st0.directorates) :
    insertMailRecord st today rec = .error .foreignKey := by
  obtain ⟨hor, ⟨n, hoid, hn⟩, hrcp⟩ := h
  unfold insertMailRecord
  rw [resolveOriginator_idbased hor hoid hn]
  dsimp only
  rw [resolveRecipient_idbased hrcp]
  have hd : dirIdExists st (rec.originator_id.getD 0) = false := by
    unfold dirIdExists at hdang ⊢
    rw [hdirs]
    exact hdang
  rw [(by simp [hd] : (!(dirIdExists st (rec.originator_id.getD 0))) = true)]
  simp

lemma addMailRecordsGo_error_of_fkDangling {st0 : DbState} {today : Date}
    {rec : MailRecordInput} (hib : idBasedInput rec)
    (hdang : dirIdExists st0 (rec.originator_id.getD 0) = false) :
    ∀ (recs : List MailRecordInput) (st : DbState), rec ∈ recs →
      st.directorates = st0.directorates →
      ∃ e, addMailRecordsGo today recs st = .error e := by
  intro recs
  induction recs with
  | nil => intro st hmem; exact absurd hmem (by simp)
  | cons r rest ih =>
    intro st hmem hdirs
    rcases List.mem_cons.mp hmem with hre | hrn
    · subst hre
      refine ⟨.foreignKey, ?_⟩
      unfold addMailRecordsGo
      rw [insertMailRecord_idbased_fk_error hib hdang hdirs]
    · cases hi : insertMailRecord st today r with
      | error e =>
        refine ⟨e, ?_⟩
        unfold addMailRecordsGo
        rw [hi]
      | ok st1 =>
        obtain ⟨hd1, _, _⟩ := insertMailRecord_ok_spec hi
        obtain ⟨e, he⟩ := ih st1 hrn (hd1.trans hdirs)
        refine ⟨e, ?_⟩
        unfold addMailRecordsGo
        rw [hi]
        exact he

/-- C9 counterexample: the claim's own scenario — an id-based batch entry
with `originator_id = 5` against an empty addressee master list — is
rejected by the engine's foreign-key enforcement (better-sqlite3 compiles
SQLite with `SQLITE_DEFAULT_FOREIGN_KEYS=1`): the call throws
`FOREIGN KEY constraint failed`, the transaction rolls back, and nothing
is persisted, so a record referencing a nonexistent addressee id cannot
be persisted. -/
theorem addMailRecords_dangling_id_rejected :
    addMailRecords ⟨[], [], [], 1, 1⟩ 110
      [⟨"T", none, some 5, 108, "Pending", "", none, none, none⟩]
      = .error .foreignKey ∧
    (postMailRecords ⟨[], [], [], 1, 1⟩ 110
      [⟨"T", none, some 5, 108, "Pending", "", none, none, none⟩]).2
      = ⟨[], [], [], 1, 1⟩ :=
  ⟨rfl, rfl⟩

/-- C9 amended: `addMailRecords` performs its application-level
master-list lookup only for name-based references; a batch of id-based
entries reaches the INSERT with the supplied ids verbatim, but the
engine's default foreign-key enforcement then decides the outcome: when
every supplied id exists the rows are inserted exactly as supplied, and
when an entry's originator id is dangling the whole batch fails and zero
records are persisted. -/
theorem addMailRecords_idbased_semantics :
    (∀ (st : DbState) (today : Date) (recs : List MailRecordInput),
      (∀ rec ∈ recs, idBasedInput rec ∧ idBasedFkOk st rec) →
      addMailRecords st today recs = .ok { st with
        mail_records := st.mail_records ++ idBasedRows st.nextMailId today recs
        nextMailId := st.nextMailId + recs.length }) ∧
    (∀ (st : DbState) (today : Date) (recs : List MailRecordInput)
      (rec : MailRecordInput), rec ∈ recs → idBasedInput rec →
      dirIdExists st (rec.originator_id.getD 0) = false →
      (∃ e, addMailRecords st today recs = .error e) ∧
      (postMailRecords st today recs).2 = st) := by
  constructor
  · intro st today recs h
    unfold addMailRecords
    induction recs generalizing st with
    | nil =>
      unfold addMailRecordsGo
      simp [idBasedRows]
    | cons rec rest ih =>
      unfold addMailRecordsGo
      rw [insertMailRecord_idbased (h rec (by simp)).1 (h rec (by simp)).2]
      dsimp only
      rw [ih { st with
          mail_records := st.mail_records ++ [idBasedRow st.nextMailId today rec]
          nextMailId := st.nextMailId + 1 }
        (fun r hr => ⟨(h r (by simp [hr])).1, (h r (by simp [hr])).2⟩)]
      have harr : idBasedRows st.nextMailId today (rec :: rest)
          = idBasedRow st.nextMailId today rec
            :: idBasedRows (st.nextMailId + 1) today rest := rfl
      simp only [Except.ok.injEq, DbState.mk.injEq, true_and, and_true]
      rw [harr]
      constructor
      · simp
      · simp only [List.length_cons]
        push_cast
        ring
  · intro st today recs rec hmem hib hdang
    obtain ⟨e, he⟩ := addMailRecordsGo_error_of_fkDangling hib hdang recs st hmem rfl
    refine ⟨⟨e, he⟩, ?_⟩
    unfold postMailRecords addMailRecords
    rw [(by rw [List.isEmpty_eq_false_iff_exists_mem]; exact ⟨rec, hmem⟩ :
      recs.isEmpty = false)]
    simp only [Bool.false_eq_true, if_false]
    rw [he]
    cases e <;> rfl

/-- Concrete runs of the amended theorem: an id-based entry whose id 5
exists is inserted verbatim with no name lookup, and the same entry
against an empty master list fails the whole batch. -/
theorem addMailRecords_idbased_semantics_witness :
    addMailRecords ⟨[⟨5, "D5"⟩], [], [], 1, 1⟩ 110
      [⟨"T", none, some 5, 108, "Pending", "", none, none, none⟩]
      = .ok ⟨[⟨5, "D5"⟩], [], [⟨1, "T", 5, 108, "Pending", "", none, none, 2⟩], 1, 2⟩ ∧
    (∃ e, addMailRecords ⟨[], [], [], 1, 1⟩ 110
      [⟨"T", none, some 5, 108, "Pending", "", none, none, none⟩]
      = .error e) := by
  constructor
  · have h := addMailRecords_idbased_semantics.1 ⟨[⟨5, "D5"⟩], [], [], 1, 1⟩ 110
      [⟨"T", none, some 5, 108, "Pending", "", none, none, none⟩]
      (by
        intro rec hrec
        rw [List.mem_singleton] at hrec
        subst hrec
        exact ⟨⟨Or.inl rfl, ⟨5, rfl, by decide⟩, Or.inl rfl⟩,
          by decide, fun m hm _ => absurd hm (by simp)⟩)
    rw [h]
    rfl
  · obtain ⟨⟨e, he⟩, _⟩ := addMailRecords_idbased_semantics.2 ⟨[], [], [], 1, 1⟩ 110
      [⟨"T", none, some 5, 108, "Pending", "", none, none, none⟩]
      ⟨"T", none, some 5, 108, "Pending", "", none, none, none⟩
      (by decide) ⟨Or.inl rfl, ⟨5, rfl, by decide⟩, Or.inl rfl⟩ (by decide)
    exact ⟨e, he⟩

end MailTrack
